import Mathlib

/-!
Shallow embedding of the FISCO-BCOS PBFT consensus engine
(`libpbftseal/PBFT.cpp`) and proofs about the claims of its specification.

Modelling conventions:
* Hashes, signatures, public keys and encoded block bytes are abstracted as
  `Nat`; a signature value stands for the hex string `sig.hex()` that keys the
  vote caches (the hex encoding is injective).
* `u256` counters (heights, views, indices, timestamps) are modelled as
  unbounded `Nat`: they are monotone counters far below `2^256`, and no claim
  exercises 256-bit wraparound of `+`.  Unsigned subtractions that CAN
  wrap in reachable states (`quorum() - 1` on `u256`, `size_t` arithmetic in
  `checkBlockSign`, `uint64` time differences in `checkTimeout`) are modelled
  with an explicit `% 2^w`.
* `std::map` is modelled as an association list with insert-or-assign and
  erase; `operator[]` default-inserts, which is modelled faithfully.
* External collaborators (the `NodeConnManagerSingleton` roster, crypto,
  the block executor, leveldb, the p2p host and the timeout clock) are
  oracle functions collected in `Env`, fixed for a run.  Signing is
  idealised: `sigOfPub pub h` is the unique signature of the holder of `pub`
  over `h`, and `dev::verify` accepts exactly that value.
* Wall-clock reads (`utcTime()`) become an explicit `now` argument of each
  entry point.  Write-only timing members (`m_last_exec_finish_time`,
  `m_last_collect_time` is kept since `collectGarbage` reads it) and pure
  logging are dropped.
* `PBFT.h` is not among the sources; the pieces of it the engine uses are
  modelled from the spec where they are needed (message defaults / `clear()`,
  `quorum()`, `kMaxChangeCycle`), each marked in its doc comment.
-/

namespace PBFT

/-- Sentinel value `Invalid256` of libdevcore (the all-ones 256-bit value). -/
def Invalid256 : Nat := 2 ^ 256 - 1

/-- Account type tag of miner nodes. -/
def EN_ACCOUNT_TYPE_MINER : Nat := 1

/-- Association-list lookup, modelling `std::map::find`. -/
def alookup {β : Type} : List (Nat × β) → Nat → Option β
  | [], _ => none
  | e :: es, k => if e.1 = k then some e.2 else alookup es k

/-- Association-list insert-or-assign, modelling `std::map` assignment. -/
def aset {β : Type} : List (Nat × β) → Nat → β → List (Nat × β)
  | [], k, v => [(k, v)]
  | e :: es, k, v => if e.1 = k then (k, v) :: es else e :: aset es k v

/-- Association-list erase by key, modelling `std::map::erase`. -/
def aerase {β : Type} : List (Nat × β) → Nat → List (Nat × β)
  | [], _ => []
  | e :: es, k => if e.1 = k then es else e :: aerase es k

/-- Lookup with default insertion, modelling `std::map::operator[]`:
returns the mapped value and the (possibly extended) map. -/
def agetD {β : Type} (m : List (Nat × β)) (k : Nat) (d : β) : β × List (Nat × β) :=
  match alookup m k with
  | some v => (v, m)
  | none => (d, aset m k d)

/-- Subtraction on `uint64` / `size_t` values (operands below `2^64`). -/
def u64sub (a b : Nat) : Nat := (a + 2 ^ 64 - b) % 2 ^ 64

/-- Subtraction of 1 on a `u256` value (wraps when the value is 0). -/
def u256sub1 (a : Nat) : Nat := (a + 2 ^ 256 - 1) % 2 ^ 256

/-- Insertion of a value into a sorted list of keys. -/
def insertSorted (x : Nat) : List Nat → List Nat
  | [] => [x]
  | y :: ys => if x ≤ y then x :: y :: ys else y :: insertSorted x ys

/-- Insertion sort; used to model the ascending key order in which
`std::map` iterates. -/
def sortNat : List Nat → List Nat
  | [] => []
  | x :: xs => insertSorted x (sortNat xs)

/-- Fields shared by the four message kinds (`PBFTMsg` of PBFT.h).
`sig` is the signature over `block_hash`, `sig2` the signature over the
remaining fields (`fieldsWithoutBlock`). -/
structure PBFTMsg where
  height : Nat
  view : Nat
  idx : Nat
  timestamp : Nat
  block_hash : Nat
  sig : Nat
  sig2 : Nat
  deriving DecidableEq

/-- Modelled from the spec: the default-constructed / `clear()`ed message is
the empty message ("otherwise `prepare` is empty"); PBFT.h is not among the
sources, so the member defaults are taken from the spec's data model. -/
def PBFTMsg.empty : PBFTMsg :=
  { height := 0, view := 0, idx := 0, timestamp := 0, block_hash := 0, sig := 0, sig2 := 0 }

/-- A `PrepareReq` additionally carries the serialised block bytes. -/
structure PrepareReq extends PBFTMsg where
  block : Nat
  deriving DecidableEq

/-- Empty prepare request. -/
def PrepareReq.empty : PrepareReq := { toPBFTMsg := PBFTMsg.empty, block := 0 }

/-- The slice of `BlockHeader` the engine reads: block number, the
hash with the seal excluded, and the declared miner node list. -/
structure BlockHeader where
  number : Nat
  hashWS : Nat
  nodeList : List Nat
  deriving DecidableEq

/-- Default-constructed header: `number` is `Invalid256` until the first
`reportBlock` (see the `m_highest_block.number() == Invalid256` guard of
`getLeader`). -/
def BlockHeader.empty : BlockHeader := { number := Invalid256, hashWS := 0, nodeList := [] }

/-- The fields of `NodeConnParams` read by `getMinerList`. -/
structure NodeConnParams where
  nodeId : Nat
  identityType : Nat
  idx : Nat
  deriving DecidableEq

/-- Result of executing and re-sealing a proposed block
(`checkBlockValid`, then `commitToSeal` and `sealBlock`), abstracted:
`execHash` is `outBlock.info().hash(WithoutSeal)` right after execution,
`resealedHash` / `resealedData` the hash and bytes after re-sealing. -/
structure ExecResult where
  execHash : Nat
  pendingCount : Nat
  sealOk : Bool
  resealedHash : Nat
  resealedData : Nat
  deriving DecidableEq

/-- External collaborators, fixed per run: the roster singleton
(`selfAccountType`, `minerNum`, `selfIdx`, `pubOf`, `allNode`), idealised
crypto (`sigOfPub`, `sig2OfPub`), the executor (`exec`), connectivity and
host liveness, the chain query used by `handleViewChangeMsg`, and the
timeout interval `m_view_timeout * 1.5^m_change_cycle` (a floating-point
value in the source, abstracted as a function of both arguments). -/
structure Env where
  selfPub : Nat
  selfAccountType : Option Nat
  minerNum : Nat
  selfIdx : Option Nat
  pubOf : Nat → Option Nat
  allNode : Int → List NodeConnParams
  sigOfPub : Nat → Nat → Nat
  sig2OfPub : Nat → Nat → Nat → Nat → Nat → Nat → Nat
  exec : PrepareReq → Option ExecResult
  isConnected : Nat → Bool
  hostAlive : Bool
  chainHasBlock : Nat → Bool
  interval : Nat → Nat → Nat
  omitEmptyBlock : Bool

/-- Emission `onSealGenerated(sealedBlock, isPrimary)`.  `hash` records the
`m_prepare_cache.block_hash` the emission is for; `block` the prepare's block
bytes (whose first four RLP fields the sealed block re-wraps); `sigs` the
`(idx, sig)` list appended as the fifth RLP field of the sealed block. -/
inductive Out where
  | seal (hash : Nat) (block : Nat) (sigs : List (Nat × Nat)) (isPrimary : Bool)
  deriving DecidableEq

/-- Hash an emission is for. -/
def Out.emittedHash : Out → Nat
  | .seal h _ _ _ => h

/-- Number of emissions for a given block hash among the outputs. -/
def sealsFor (outs : List Out) (h : Nat) : Nat :=
  (outs.filter (fun o => decide (o.emittedHash = h))).length

/-- Engine state: the member variables of class `PBFT` that the handlers
read or write (write-only timing members are dropped). -/
structure St where
  cfg_err : Bool
  account_type : Nat
  node_num : Nat
  node_idx : Nat
  f : Nat
  miner_list : List Nat
  view : Nat
  to_view : Nat
  change_cycle : Nat
  leader_failed : Bool
  empty_block_flag : Bool
  consensus_block_number : Nat
  highest_block : BlockHeader
  raw_prepare : PrepareReq
  prepare : PrepareReq
  committed_prepare : PrepareReq
  future_prepare : Nat × PrepareReq
  sign_cache : List (Nat × List (Nat × PBFTMsg))
  commit_cache : List (Nat × List (Nat × PBFTMsg))
  view_change : List (Nat × List (Nat × PBFTMsg))
  commitMap : List (Nat × Bool)
  last_consensus_time : Nat
  last_sign_time : Nat
  last_collect_time : Nat
  view_timeout : Nat
  deriving DecidableEq

/-- Modelled from the spec: `quorum() = m_node_num - m_f` ("quorum = N − f");
the body of `quorum()` lives in the missing PBFT.h, while `m_f` is set to
`(m_node_num - 1) / 3` by `resetConfig`. -/
def quorum (s : St) : Nat := s.node_num - s.f

/-- Modelled from the spec: the saturation constant `kMaxChangeCycle` of the
missing PBFT.h; no claim depends on its value. -/
def kMaxChangeCycle : Nat := 20

/-- Garbage-collection period `PBFT::kCollectInterval` (seconds). -/
def kCollectInterval : Nat := 60

/-- Signing with the node's own key: `dev::sign(m_key_pair.sec(), hash)`. -/
def signHash (env : Env) (h : Nat) : Nat := env.sigOfPub env.selfPub h

/-- Signature verification of a message (`PBFT::checkSign(PBFTMsg)`): look up
the sender's public key by `idx` and verify `sig` over `block_hash` and
`sig2` over the remaining fields. -/
def checkSign (env : Env) (m : PBFTMsg) : Bool :=
  match env.pubOf m.idx with
  | none => false
  | some pub =>
    decide (m.sig = env.sigOfPub pub m.block_hash) &&
      decide (m.sig2 = env.sig2OfPub pub m.height m.view m.idx m.timestamp m.block_hash)

/-- Broadcast to the miner peers; succeeds when the host is alive
(`m_host.lock()`); the peer-seen filter state lives outside the engine. -/
def broadcastMsg (env : Env) : Bool := env.hostAlive

/-- Assignment loop of `getMinerList`: place each miner's node id at its
`_iIdx` slot, failing when an index is out of range. -/
def minerListGo : List NodeConnParams → List Nat → Nat → Option (List Nat)
  | [], acc, _ => some acc
  | n :: ns, acc, num => if num ≤ n.idx then none else minerListGo ns (acc.set n.idx n.nodeId) num

/-- Miner list at a block number (`PBFT::getMinerList`): count the miners in
the roster snapshot, then fill a list of that size indexed by `_iIdx`. -/
def getMinerList (env : Env) (blk : Int) : Option (List Nat) :=
  let miners := (env.allNode blk).filter (fun n => decide (n.identityType = EN_ACCOUNT_TYPE_MINER))
  minerListGo miners (List.replicate miners.length 0) miners.length

/-- Configuration refresh (`PBFT::resetConfig`): look up the node's own
account type and index, and on a roster change re-read the miner list and
drop the prepare / sign / view-change / commit-trigger caches. -/
def resetConfig (env : Env) (s : St) : St :=
  match env.selfAccountType with
  | none => { s with cfg_err := true }
  | some acct =>
    let s1 := { s with account_type := acct }
    if env.minerNum = 0 then { s1 with cfg_err := true }
    else
      match env.selfIdx with
      | none => { s1 with cfg_err := true }
      | some idx =>
        if env.minerNum ≠ s1.node_num ∨ idx ≠ s1.node_idx then
          let s2 := { s1 with node_num := env.minerNum, node_idx := idx,
                              f := (env.minerNum - 1) / 3,
                              prepare := PrepareReq.empty,
                              sign_cache := [], view_change := [], commitMap := [] }
          match getMinerList env (-1) with
          | none => { s2 with cfg_err := true }
          | some ml =>
            if ml.length ≠ s2.node_num then { s2 with cfg_err := true }
            else { s2 with miner_list := ml, cfg_err := false }
        else { s1 with cfg_err := false }

/-- Leader query (`PBFT::getLeader`): fails on configuration error, suspected
leader, or unknown chain tip; otherwise `(m_view + tip) % m_node_num`. -/
def getLeader (s : St) : Option Nat :=
  if s.cfg_err ∨ s.leader_failed ∨ s.highest_block.number = Invalid256 then none
  else some ((s.view + s.highest_block.number) % s.node_num)

/-- Store a proposal as the raw prepare and reset the prepare cache
(`PBFT::addRawPrepare`). -/
def addRawPrepare (s : St) (req : PrepareReq) : St :=
  { s with raw_prepare := req, prepare := PrepareReq.empty }

/-- Drop the entries of the bucket at `h` whose view differs from `v`
(the loops of `PBFT::addPrepareReq`). -/
def filterBucketView (c : List (Nat × List (Nat × PBFTMsg))) (h v : Nat) :
    List (Nat × List (Nat × PBFTMsg)) :=
  match alookup c h with
  | none => c
  | some b => aset c h (b.filter (fun e => decide (e.2.view = v)))

/-- Store the re-signed proposal in the prepare cache and drop stale-view
votes for its hash (`PBFT::addPrepareReq`). -/
def addPrepareReq (s : St) (req : PrepareReq) : St :=
  let s1 := { s with prepare := req }
  let s2 := { s1 with sign_cache := filterBucketView s1.sign_cache req.block_hash req.view }
  { s2 with commit_cache := filterBucketView s2.commit_cache req.block_hash req.view }

/-- Record a sign vote: `m_sign_cache[block_hash][sig.hex()] = req`. -/
def addSignReq (s : St) (req : PBFTMsg) : St :=
  let p := agetD s.sign_cache req.block_hash []
  { s with sign_cache := aset p.2 req.block_hash (aset p.1 req.sig req) }

/-- Record a commit vote: `m_commit_cache[block_hash][sig.hex()] = req`. -/
def addCommitReq (s : St) (req : PBFTMsg) : St :=
  let p := agetD s.commit_cache req.block_hash []
  { s with commit_cache := aset p.2 req.block_hash (aset p.1 req.sig req) }

/-- Duplicate test for proposals (`PBFT::isExistPrepare`). -/
def isExistPrepare (s : St) (req : PrepareReq) : Bool :=
  decide (s.raw_prepare.block_hash = req.block_hash)

/-- Duplicate test for sign votes (`PBFT::isExistSign`). -/
def isExistSign (s : St) (req : PBFTMsg) : Bool :=
  match alookup s.sign_cache req.block_hash with
  | none => false
  | some b => (alookup b req.sig).isSome

/-- Duplicate test for commit votes (`PBFT::isExistCommit`). -/
def isExistCommit (s : St) (req : PBFTMsg) : Bool :=
  match alookup s.commit_cache req.block_hash with
  | none => false
  | some b => (alookup b req.sig).isSome

/-- Duplicate test for view changes (`PBFT::isExistViewChange`). -/
def isExistViewChange (s : St) (req : PBFTMsg) : Bool :=
  match alookup s.view_change req.view with
  | none => false
  | some b => (alookup b req.idx).isSome

/-- Finalisation (`PBFT::checkAndSave`): when both vote sets for the prepared
hash reach quorum and the hash is not yet marked committed, mark it, and —
if the view still matches and the height is above the chain tip — emit the
sealed block carrying one `(idx, sig)` pair per cached commit vote. -/
def checkAndSave (s : St) : St × List Out :=
  let ps := agetD s.sign_cache s.prepare.block_hash []
  let pc := agetD s.commit_cache s.prepare.block_hash []
  let s1 := { s with sign_cache := ps.2, commit_cache := pc.2 }
  let committed := (alookup s1.commitMap s1.prepare.block_hash).getD false
  if quorum s1 ≤ ps.1.length ∧ quorum s1 ≤ pc.1.length ∧ committed = false then
    let s2 := { s1 with commitMap := aset s1.commitMap s1.prepare.block_hash true }
    if s2.prepare.view ≠ s2.view then (s2, [])
    else if s2.highest_block.number < s2.prepare.height then
      (s2, [Out.seal s2.prepare.block_hash s2.prepare.block
              (pc.1.map (fun e => (e.2.idx, e.1)))
              (decide (s2.prepare.idx = s2.node_idx))])
    else (s2, [])
  else (s1, [])

/-- Emission of a commit vote for the prepared block
(`PBFT::broadcastCommitReq`): build it, broadcast, and on success record the
node's own vote. -/
def broadcastCommitReq (env : Env) (now : Nat) (s : St) (req : PrepareReq) : St × Bool :=
  let cr : PBFTMsg :=
    { height := req.height, view := req.view, idx := s.node_idx, timestamp := now,
      block_hash := req.block_hash, sig := signHash env req.block_hash,
      sig2 := env.sig2OfPub env.selfPub req.height req.view s.node_idx now req.block_hash }
  if broadcastMsg env then (addCommitReq s cr, true) else (s, false)

/-- Emission of a sign vote for a proposal (`PBFT::broadcastSignReq`). -/
def broadcastSignReq (env : Env) (now : Nat) (s : St) (req : PrepareReq) : St × Bool :=
  let sr : PBFTMsg :=
    { height := req.height, view := req.view, idx := s.node_idx, timestamp := now,
      block_hash := req.block_hash, sig := signHash env req.block_hash,
      sig2 := env.sig2OfPub env.selfPub req.height req.view s.node_idx now req.block_hash }
  if broadcastMsg env then (addSignReq s sr, true) else (s, false)

/-- Proposal broadcast (`PBFT::broadcastPrepareReq`): on success the proposal
becomes the raw prepare. -/
def broadcastPrepareReq (env : Env) (now : Nat) (s : St) (bi : BlockHeader) (data : Nat) :
    St × Bool :=
  let req : PrepareReq :=
    { height := bi.number, view := s.view, idx := s.node_idx, timestamp := now,
      block_hash := bi.hashWS, sig := signHash env bi.hashWS,
      sig2 := env.sig2OfPub env.selfPub bi.number s.view s.node_idx now bi.hashWS,
      block := data }
  if broadcastMsg env then (addRawPrepare s req, true) else (s, false)

/-- Phase-2-to-3 transition (`PBFT::checkAndCommit`): exactly at sign quorum
and matching view, persist the raw prepare as the committed prepare,
broadcast the commit vote (miners), refresh the sign timer, and try to
finalise. -/
def checkAndCommit (env : Env) (now : Nat) (s : St) : St × List Out :=
  let ps := agetD s.sign_cache s.prepare.block_hash []
  let s1 := { s with sign_cache := ps.2 }
  if ps.1.length = quorum s1 then
    if s1.prepare.view ≠ s1.view then (s1, [])
    else
      let s2 := { s1 with committed_prepare := s1.raw_prepare }
      let s3 := if s2.account_type = EN_ACCOUNT_TYPE_MINER
                then (broadcastCommitReq env now s2 s2.prepare).1 else s2
      checkAndSave { s3 with last_sign_time := now }
  else (s1, [])

/-- View-change completion (`PBFT::checkAndChangeView`): at `quorum() - 1`
cached view changes for `m_to_view` (computed on `u256`), adopt the new view,
clear the leader-failed flag and all consensus caches (including the
commit-trigger map), and purge the view-change cache up to the new view. -/
def checkAndChangeView (s : St) : St :=
  let p := agetD s.view_change s.to_view []
  let s1 := { s with view_change := p.2 }
  if u256sub1 (quorum s1) ≤ p.1.length then
    let s2 := { s1 with leader_failed := false, view := s1.to_view,
                        raw_prepare := PrepareReq.empty, prepare := PrepareReq.empty,
                        sign_cache := [], commit_cache := [], commitMap := [] }
    { s2 with view_change := s2.view_change.filter (fun e => decide (s2.view < e.1)) }
  else s1

/-- Park a proposal for a future slot (`PBFT::recvFutureBlock`): the single
slot is overwritten only when the hash differs. -/
def recvFutureBlock (s : St) (frm : Nat) (req : PrepareReq) : St :=
  if s.future_prepare.2.block_hash ≠ req.block_hash then { s with future_prepare := (frm, req) }
  else s

/-- Tail of `PBFT::handlePrepareMsg` once the raw prepare is stored: execute
the block, reject on a hash mismatch, handle the empty-block case, re-seal,
store the re-signed proposal, broadcast the node's sign vote (miners) and
try to commit. -/
def handlePrepareExec (env : Env) (now : Nat) (s : St) (req : PrepareReq) : St × List Out :=
  match env.exec req with
  | none => (s, [])
  | some er =>
    if er.execHash ≠ req.block_hash then (s, [])
    else if er.pendingCount = 0 ∧ env.omitEmptyBlock then
      ({ s with last_consensus_time := 0, last_sign_time := 0, change_cycle := 0,
                empty_block_flag := true }, [])
    else if er.sealOk = false then (s, [])
    else
      let nreq : PrepareReq :=
        { height := req.height, view := req.view, idx := req.idx, timestamp := now,
          block_hash := er.resealedHash, sig := signHash env er.resealedHash,
          sig2 := env.sig2OfPub env.selfPub req.height req.view req.idx now er.resealedHash,
          block := er.resealedData }
      let s2 := addPrepareReq s nreq
      let s3 := if s2.account_type = EN_ACCOUNT_TYPE_MINER
                then (broadcastSignReq env now s2 nreq).1 else s2
      checkAndCommit env now s3

/-- Proposal handler (`PBFT::handlePrepareMsg`): filter duplicates, self
messages, stale and future slots, wrong leaders, proposals contradicting the
committed prepare, and bad signatures; then store the raw prepare and run
the execution tail `handlePrepareExec`. -/
def handlePrepareMsg (env : Env) (now : Nat) (s : St) (frm : Nat) (req : PrepareReq)
    (self : Bool) : St × List Out :=
  if isExistPrepare s req then (s, [])
  else if ¬self ∧ req.idx = s.node_idx then (s, [])
  else if req.height < s.consensus_block_number ∨ req.view < s.view then (s, [])
  else if s.consensus_block_number < req.height ∨ s.view < req.view then
    (recvFutureBlock s frm req, [])
  else if getLeader s ≠ some req.idx then (s, [])
  else if req.height = s.committed_prepare.height ∧
          req.block_hash ≠ s.committed_prepare.block_hash then (s, [])
  else if checkSign env req.toPBFTMsg = false then (s, [])
  else handlePrepareExec env now (addRawPrepare s req) req

/-- Sign-vote handler (`PBFT::handleSignMsg`): drop duplicates and own votes;
a vote for a hash other than the prepared one is cached only when it is for
`height ≥ m_consensus_block_number` or `view > m_view` and its signatures
verify; a matching vote must also match the prepare's view and verify, and
then triggers `checkAndCommit`. -/
def handleSignMsg (env : Env) (now : Nat) (s : St) (_frm : Nat) (req : PBFTMsg) :
    St × List Out :=
  if isExistSign s req then (s, [])
  else if req.idx = s.node_idx then (s, [])
  else if s.prepare.block_hash ≠ req.block_hash then
    if (s.consensus_block_number ≤ req.height ∨ s.view < req.view) ∧
        checkSign env req = true then
      (addSignReq s req, [])
    else (s, [])
  else if s.prepare.view ≠ req.view then (s, [])
  else if checkSign env req = false then (s, [])
  else checkAndCommit env now (addSignReq s req)

/-- Commit-vote handler (`PBFT::handleCommitMsg`), mirroring the sign-vote
handler with the commit cache and `checkAndSave`. -/
def handleCommitMsg (env : Env) (_now : Nat) (s : St) (_frm : Nat) (req : PBFTMsg) :
    St × List Out :=
  if isExistCommit s req then (s, [])
  else if req.idx = s.node_idx then (s, [])
  else if s.prepare.block_hash ≠ req.block_hash then
    if (s.consensus_block_number ≤ req.height ∨ s.view < req.view) ∧
        checkSign env req = true then
      (addCommitReq s req, [])
    else (s, [])
  else if s.prepare.view ≠ req.view then (s, [])
  else if checkSign env req = false then (s, [])
  else checkAndSave (addCommitReq s req)

/-- Accumulator of the fast-view-change scan of `handleViewChangeMsg`:
per-signer maximum view, plus the minima of views and heights seen. -/
structure VCScan where
  map : List (Nat × Nat)
  min_view : Nat
  min_height : Nat
  deriving DecidableEq

/-- One cached view change of bucket `v` in the fast-view-change scan. -/
def vcScanEntry (highest v : Nat) (acc : VCScan) (e : Nat × PBFTMsg) : VCScan :=
  let found := (alookup acc.map e.1).isSome
  if highest ≤ e.2.height ∧ (found = false ∨ (alookup acc.map e.1).getD 0 < v) then
    { map := aset acc.map e.1 v, min_view := min acc.min_view v,
      min_height := min acc.min_height e.2.height }
  else acc

/-- Scan of one view bucket in ascending index order. -/
def vcScanView (c : List (Nat × List (Nat × PBFTMsg))) (highest : Nat) (acc : VCScan)
    (v : Nat) : VCScan :=
  ((alookup c v).getD []).foldl (vcScanEntry highest v) acc

/-- Scan of all view-change buckets above `to_view` in the ascending key
order of `std::map` iteration. -/
def vcScan (c : List (Nat × List (Nat × PBFTMsg))) (to_view highest : Nat) : VCScan :=
  (sortNat ((c.map Prod.fst).filter (fun k => decide (to_view < k)))).foldl
    (vcScanView c highest) { map := [], min_view := Invalid256, min_height := Invalid256 }

/-- View-change handler (`PBFT::handleViewChangeMsg`): filter duplicates, own
messages, stale heights/views, contradictory tip hashes and bad signatures
(the motivation unicast changes no engine state); cache the message; at
`m_to_view` try to complete the change, otherwise run the fast-view-change
scan and possibly jump `m_to_view` to `min_view - 1`. -/
def handleViewChangeMsg (env : Env) (_now : Nat) (s : St) (_frm : Nat) (req : PBFTMsg) : St :=
  if isExistViewChange s req then s
  else if req.idx = s.node_idx then s
  else if req.height < s.highest_block.number ∨ req.view ≤ s.view then s
  else if req.height = s.highest_block.number ∧ req.block_hash ≠ s.highest_block.hashWS ∧
          env.chainHasBlock req.block_hash = false then s
  else if checkSign env req = false then s
  else
    let p := agetD s.view_change req.view []
    let s1 := { s with view_change := aset p.2 req.view (aset p.1 req.idx req) }
    if req.view = s1.to_view then checkAndChangeView s1
    else
      let scan := vcScan s1.view_change s1.to_view s1.highest_block.number
      let flag := scan.min_height = s1.consensus_block_number ∧
                  scan.min_height = s1.committed_prepare.height
      if s1.f < scan.map.length ∧ ¬flag then
        let s2 := { s1 with last_consensus_time := 0, last_sign_time := 0,
                            to_view := scan.min_view - 1 }
        { s2 with change_cycle := min s2.to_view kMaxChangeCycle }
      else s1

/-- View-change broadcast (`PBFT::broadcastViewChangeReq`): non-miners give
up (successfully); otherwise the empty-block flag is consumed and the message
is broadcast. -/
def broadcastViewChangeReq (env : Env) (s : St) : St × Bool :=
  if s.account_type ≠ EN_ACCOUNT_TYPE_MINER then (s, true)
  else ({ s with empty_block_flag := false }, broadcastMsg env)

/-- Timeout processing (`PBFT::checkTimeout`): when the `uint64` distance
from the last anchor reaches the interval, suspect the leader, advance
`m_to_view`, saturate the change cycle, purge contradictory cached view
changes for the new `m_to_view`, broadcast the view change and try to
complete it. -/
def checkTimeout (env : Env) (now : Nat) (s : St) : St :=
  let last := max s.last_consensus_time s.last_sign_time
  if env.interval s.view_timeout s.change_cycle ≤ u64sub now last then
    let s1 := { s with leader_failed := true, to_view := s.to_view + 1,
                       change_cycle := min (s.change_cycle + 1) kMaxChangeCycle,
                       last_consensus_time := now }
    let p := agetD s1.view_change s1.to_view []
    let b := p.1.filter (fun e =>
      decide (¬(e.2.height < s1.highest_block.number) ∧
              ¬(e.2.height = s1.highest_block.number ∧
                e.2.block_hash ≠ s1.highest_block.hashWS)))
    let s2 := { s1 with view_change := aset p.2 s1.to_view b }
    let r := broadcastViewChangeReq env s2
    if r.2 = false then r.1 else checkAndChangeView r.1
  else s

/-- Single future-slot drain (`PBFT::handleFutureBlock`): when the parked
proposal matches the current slot, replay it and clear the slot. -/
def handleFutureBlock (env : Env) (now : Nat) (s : St) : St × List Out :=
  if s.future_prepare.2.height = s.consensus_block_number ∧
      s.future_prepare.2.view = s.view then
    let r := handlePrepareMsg env now s s.future_prepare.1 s.future_prepare.2 false
    ({ r.1 with future_prepare := (Invalid256, PrepareReq.empty) }, r.2)
  else (s, [])

/-- Purge of stale view changes on chain advancement (`PBFT::delViewChange`):
drop entries below the tip or contradicting the tip hash, then drop empty
buckets. -/
def delViewChange (s : St) : St :=
  let pruned := s.view_change.map (fun e =>
    (e.1, e.2.filter (fun e2 =>
      decide (¬(e2.2.height < s.highest_block.number) ∧
              ¬(e2.2.height = s.highest_block.number ∧
                e2.2.block_hash ≠ s.highest_block.hashWS)))))
  { s with view_change := pruned.filter (fun e => decide (e.2.length ≠ 0)) }

/-- Cache removal for a committed hash (`PBFT::delCache`): erase its vote
buckets, clear the prepare cache when it holds that hash, and erase its
commit-trigger entry. -/
def delCache (s : St) (h : Nat) : St :=
  let s1 := { s with sign_cache := aerase s.sign_cache h,
                     commit_cache := aerase s.commit_cache h }
  let s2 := if s1.prepare.block_hash = h then { s1 with prepare := PrepareReq.empty } else s1
  { s2 with commitMap := aerase s2.commitMap h }

/-- Chain advancement callback (`PBFT::reportBlock`): adopt the new tip; when
it reaches the consensus height, reset views and the leader-failed flag and
advance the consensus height; always refresh the configuration and drop
caches for the reported hash. -/
def reportBlock (env : Env) (now : Nat) (s : St) (b : BlockHeader) : St :=
  let s1 := { s with highest_block := b }
  let s2 :=
    if s1.consensus_block_number ≤ b.number then
      delViewChange { s1 with view := 0, to_view := 0, change_cycle := 0,
                              leader_failed := false, last_consensus_time := now,
                              consensus_block_number := b.number + 1 }
    else s1
  let s3 := resetConfig env s2
  delCache s3 s3.highest_block.hashWS

/-- Sign-cache sweep of `collectGarbage`: prune entries below the tip and,
when a bucket empties, erase the hash from the commit-trigger map. -/
def collectSign (highest : Nat) :
    List (Nat × List (Nat × PBFTMsg)) → List (Nat × Bool) →
      List (Nat × List (Nat × PBFTMsg)) × List (Nat × Bool)
  | [], cm => ([], cm)
  | e :: es, cm =>
    let b := e.2.filter (fun e2 => decide (¬(e2.2.height < highest)))
    if b.length = 0 then collectSign highest es (aerase cm e.1)
    else
      let r := collectSign highest es cm
      ((e.1, b) :: r.1, r.2)

/-- Commit-cache sweep of `collectGarbage`. -/
def collectCommit (highest : Nat) (c : List (Nat × List (Nat × PBFTMsg))) :
    List (Nat × List (Nat × PBFTMsg)) :=
  (c.map (fun e => (e.1, e.2.filter (fun e2 => decide (¬(e2.2.height < highest)))))).filter
    (fun e => decide (e.2.length ≠ 0))

/-- Periodic garbage collection (`PBFT::collectGarbage`), gated to once per
`kCollectInterval` and skipped before the first reported block. -/
def collectGarbage (now : Nat) (s : St) : St :=
  if s.highest_block.number = Invalid256 then s
  else if kCollectInterval ≤ now - s.last_collect_time then
    let r := collectSign s.highest_block.number s.sign_cache s.commitMap
    { s with sign_cache := r.1, commitMap := r.2,
             commit_cache := collectCommit s.highest_block.number s.commit_cache,
             last_collect_time := now }
  else s

/-- Replay of the committed-but-unsaved proposal (`PBFT::reHandlePrepareReq`):
rebuild a prepare for it under the current view with fresh own signatures
(after clearing the peer-seen masks, which live outside the engine),
broadcast it and handle it as a self proposal. -/
def reHandlePrepareReq (env : Env) (now : Nat) (s : St) : St × List Out :=
  let req : PrepareReq :=
    { height := s.committed_prepare.height, view := s.view, idx := s.node_idx,
      timestamp := now, block_hash := s.committed_prepare.block_hash,
      sig := signHash env s.committed_prepare.block_hash,
      sig2 := env.sig2OfPub env.selfPub s.committed_prepare.height s.view s.node_idx now
        s.committed_prepare.block_hash,
      block := s.committed_prepare.block }
  handlePrepareMsg env now s s.node_idx req true

/-- Sealing gate (`PBFT::shouldSeal`).  Result: the returned boolean, the
possibly updated state (the disconnected-leader branch zeroes the timeout
anchors), whether `reHandlePrepareReq` ran, and any emissions it produced. -/
def shouldSeal (env : Env) (now : Nat) (s : St) : Bool × St × Bool × List Out :=
  if s.cfg_err = true ∨ s.account_type ≠ EN_ACCOUNT_TYPE_MINER then (false, s, false, [])
  else
    match getLeader s with
    | none => (false, s, false, [])
    | some leader =>
      if leader ≠ s.node_idx then
        let s1 :=
          if env.hostAlive then
            match env.pubOf leader with
            | some pk =>
              if env.isConnected pk = false then
                { s with last_consensus_time := 0, last_sign_time := 0 }
              else s
            | none => s
          else s
        (false, s1, false, [])
      else if s.consensus_block_number = s.committed_prepare.height then
        if s.consensus_block_number ≠ s.raw_prepare.height then
          let r := reHandlePrepareReq env now s
          (false, r.1, true, r.2)
        else (false, s, false, [])
      else (true, s, false, [])

/-- Primary proposal (`PBFT::generateSeal`): broadcast the prepare; the seal
fails iff the broadcast does. -/
def generateSeal (env : Env) (now : Nat) (s : St) (bi : BlockHeader) (data : Nat) :
    Bool × St :=
  let r := broadcastPrepareReq env now s bi data
  (r.2, r.1)

/-- Single-node fast path (`PBFT::generateCommit`): under the recorded view,
store the proposal as the prepare, broadcast the node's own sign vote and try
to commit. -/
def generateCommit (env : Env) (now : Nat) (s : St) (bi : BlockHeader) (data : Nat)
    (v : Nat) : Bool × St × List Out :=
  if v ≠ s.view then (false, s, [])
  else
    let req : PrepareReq :=
      { height := bi.number, view := v, idx := s.node_idx, timestamp := now,
        block_hash := bi.hashWS, sig := signHash env bi.hashWS,
        sig2 := env.sig2OfPub env.selfPub bi.number v s.node_idx now bi.hashWS,
        block := data }
    let s1 := addPrepareReq s req
    let r := broadcastSignReq env now s1 req
    if r.2 then
      let c := checkAndCommit env now r.1
      (true, c.1, c.2)
    else (true, r.1, [])

/-- Empty-block view change under the engine lock
(`PBFT::changeViewForEmptyBlockWithLock`): zero the timeout anchors and mark
the leader failed so the empty-block leader does not immediately re-seal. -/
def changeViewForEmptyBlockWithLock (s : St) : St :=
  { s with last_consensus_time := 0, last_sign_time := 0, change_cycle := 0,
           empty_block_flag := true, leader_failed := true }

/-- Signature-count gate of `checkBlockSign`, computed on `size_t`:
`miner_list.size() - (miner_list.size() - 1) / 3`. -/
def signCountThreshold (n : Nat) : Nat := u64sub n (u64sub n 1 / 3)

/-- The quorum formula of the specification: `N - ⌊(N-1)/3⌋`. -/
def quorumSize (n : Nat) : Nat := n - (n - 1) / 3

/-- Idealised `dev::verify`: a signature verifies against a public key over a
hash exactly when it is that key holder's signature of the hash. -/
def verifySig (env : Env) (pub sig h : Nat) : Bool := decide (sig = env.sigOfPub pub h)

/-- Block-signature verifier (`PBFT::checkBlockSign`): fetch the miner list
at `number - 1`, require it to match the header's node list, require the
signature count to reach the threshold, and verify every `(idx, sig)` pair
against the indexed miner's key over the header's pre-seal hash. -/
def checkBlockSign (env : Env) (header : BlockHeader) (sigs : List (Nat × Nat)) : Bool :=
  match getMinerList env ((header.number : Int) - 1) with
  | none => false
  | some ml =>
    if header.nodeList ≠ ml then false
    else if sigs.length < signCountThreshold ml.length then false
    else sigs.all (fun p =>
      decide (p.1 < ml.length) && verifySig env (ml.getD p.1 0) p.2 header.hashWS)

/-- Member defaults of class `PBFT` before `initEnv` runs.  Modelled from the
spec where PBFT.h (not among the sources) would decide: counters start at 0,
caches empty, the chain tip unknown. -/
def St.default0 : St :=
  { cfg_err := false, account_type := 0, node_num := 0, node_idx := 0, f := 0,
    miner_list := [], view := 0, to_view := 0, change_cycle := 0, leader_failed := false,
    empty_block_flag := false, consensus_block_number := 0,
    highest_block := BlockHeader.empty, raw_prepare := PrepareReq.empty,
    prepare := PrepareReq.empty, committed_prepare := PrepareReq.empty,
    future_prepare := (Invalid256, PrepareReq.empty), sign_cache := [], commit_cache := [],
    view_change := [], commitMap := [], last_consensus_time := 0, last_sign_time := 0,
    last_collect_time := 0, view_timeout := 0 }

/-- Engine initialisation (`PBFT::initEnv`): refresh the configuration, set
the timers and counters, and restore the committed prepare from the backup
database (`reloadMsg`) when one is stored. -/
def initEnvSt (env : Env) (vt now : Nat) (restored : Option PrepareReq) : St :=
  let s1 := resetConfig env St.default0
  let s2 := { s1 with view_timeout := vt, consensus_block_number := 0,
                      last_consensus_time := now, change_cycle := 0, to_view := 0,
                      leader_failed := false, last_sign_time := 0,
                      last_collect_time := now,
                      future_prepare := (Invalid256, PrepareReq.empty) }
  match restored with
  | some r => { s2 with committed_prepare := r }
  | none => s2

/-- Entry points of the engine, as invoked by the worker loop, the network
dispatcher, the chain and the client. -/
inductive Ev where
  | prepareMsg (now frm : Nat) (req : PrepareReq)
  | signMsg (now frm : Nat) (req : PBFTMsg)
  | commitMsg (now frm : Nat) (req : PBFTMsg)
  | viewChangeMsg (now frm : Nat) (req : PBFTMsg)
  | timeout (now : Nat)
  | futureBlk (now : Nat)
  | collect (now : Nat)
  | report (now : Nat) (b : BlockHeader)
  | genSeal (now : Nat) (bi : BlockHeader) (data : Nat)
  | genCommit (now : Nat) (bi : BlockHeader) (data : Nat) (v : Nat)
  | sealQuery (now : Nat)
  | emptyBlockView
  deriving DecidableEq

/-- One entry-point invocation. -/
def step (env : Env) (s : St) : Ev → St × List Out
  | .prepareMsg now frm req => handlePrepareMsg env now s frm req false
  | .signMsg now frm req => handleSignMsg env now s frm req
  | .commitMsg now frm req => handleCommitMsg env now s frm req
  | .viewChangeMsg now frm req => (handleViewChangeMsg env now s frm req, [])
  | .timeout now => (checkTimeout env now s, [])
  | .futureBlk now => handleFutureBlock env now s
  | .collect now => (collectGarbage now s, [])
  | .report now b => (reportBlock env now s b, [])
  | .genSeal now bi data => ((generateSeal env now s bi data).2, [])
  | .genCommit now bi data v =>
    let r := generateCommit env now s bi data v
    (r.2.1, r.2.2)
  | .sealQuery now =>
    let r := shouldSeal env now s
    (r.2.1, r.2.2.2)
  | .emptyBlockView => (changeViewForEmptyBlockWithLock s, [])

/-- A sequence of entry-point invocations, with the emissions collected. -/
def run (env : Env) (s : St) : List Ev → St × List Out
  | [] => (s, [])
  | ev :: evs =>
    let r1 := step env s ev
    let r2 := run env r1.1 evs
    (r2.1, r1.2 ++ r2.2)

/-- Reachability: some initialisation followed by some invocation sequence. -/
def Reachable (env : Env) (s : St) : Prop :=
  ∃ vt t0 restored evs, s = (run env (initEnvSt env vt t0 restored) evs).1

/-- Entry points that can clear a set commit-trigger flag:
view-change handling (`handleViewChangeMsg`, `checkTimeout`), chain
advancement (`reportBlock` via `delCache` and `resetConfig`), and garbage
collection. -/
def isClearingEv : Ev → Bool
  | .viewChangeMsg _ _ _ => true
  | .timeout _ => true
  | .report _ _ => true
  | .collect _ => true
  | _ => false

/-- Concrete single-miner environment (N = 1) used by concrete evaluations. -/
def env1 : Env :=
  { selfPub := 100, selfAccountType := some EN_ACCOUNT_TYPE_MINER, minerNum := 1,
    selfIdx := some 0,
    pubOf := fun i => if i = 0 then some 100 else none,
    allNode := fun _ => [{ nodeId := 100, identityType := EN_ACCOUNT_TYPE_MINER, idx := 0 }],
    sigOfPub := fun pub h => 1000000 * pub + h,
    sig2OfPub := fun pub a b c d e => pub + 2 * a + 3 * b + 5 * c + 7 * d + 11 * e,
    exec := fun req => some { execHash := req.block_hash, pendingCount := 1, sealOk := true,
                              resealedHash := req.block_hash, resealedData := req.block },
    isConnected := fun _ => true, hostAlive := true, chainHasBlock := fun _ => false,
    interval := fun _ _ => 10, omitEmptyBlock := false }

/-- Concrete two-miner environment (N = 2): this node has index 0 and key
100, the peer index 1 and key 200; execution re-seals to the same hash. -/
def env2 : Env :=
  { env1 with
    minerNum := 2,
    pubOf := fun i => if i = 0 then some 100 else if i = 1 then some 200 else none,
    allNode := fun _ => [{ nodeId := 100, identityType := EN_ACCOUNT_TYPE_MINER, idx := 0 },
                         { nodeId := 200, identityType := EN_ACCOUNT_TYPE_MINER, idx := 1 }] }

/-- Variant of `env2` whose executor re-seals to a different hash
(`resealedHash = block_hash + 1`). -/
def env2x : Env :=
  { env2 with
    exec := fun req => some { execHash := req.block_hash, pendingCount := 1,
                              sealOk := true, resealedHash := req.block_hash + 1,
                              resealedData := req.block } }

/-- Initial state of the single-miner node. -/
def init1 : St := initEnvSt env1 10 0 none

/-- Double-emission scenario on the single-miner node: commit block hash 77
at height 1 (first emission), time out (the view change clears the
commit-trigger map), then commit the same hash again under the new view. -/
def evsC1 : List Ev :=
  [Ev.report 5 { number := 0, hashWS := 50, nodeList := [100] },
   Ev.genCommit 6 { number := 1, hashWS := 77, nodeList := [100] } 9 0,
   Ev.timeout 1000,
   Ev.genCommit 2000 { number := 1, hashWS := 77, nodeList := [100] } 9 1]

/-- Prefix of `evsC1` up to the first emission. -/
def evsC1pre : List Ev := evsC1.take 2

/-- A vote of signer `i` over hash 40 at height 5, view 3. -/
def voteC3 (i : Nat) : PBFTMsg :=
  { height := 5, view := 3, idx := i, timestamp := 0, block_hash := 40, sig := 10 + i,
    sig2 := 0 }

/-- State at sign and commit quorum (3 of 4) for hash 40 whose prepared view
3 no longer matches the current view 0. -/
def stC3 : St :=
  { St.default0 with
    node_num := 4, f := 1, view := 0,
    highest_block := { number := 4, hashWS := 50, nodeList := [] },
    prepare := { height := 5, view := 3, idx := 1, timestamp := 0, block_hash := 40,
                 sig := 0, sig2 := 0, block := 8 },
    sign_cache := [(40, [(11, voteC3 1), (12, voteC3 2), (13, voteC3 3)])],
    commit_cache := [(40, [(11, voteC3 1), (12, voteC3 2), (13, voteC3 3)])] }

/-- Variant of `stC3` whose prepared view matches, so emission fires. -/
def stC4 : St := { stC3 with view := 3 }

/-- A committed prepare at height 10 for hash 60. -/
def prepC7 : PrepareReq :=
  { height := 10, view := 0, idx := 1, timestamp := 0, block_hash := 60, sig := 0, sig2 := 0,
    block := 3 }

/-- Leader state whose committed prepare sits at the consensus height while
the raw prepare is already at that height as well. -/
def stC7 : St :=
  { St.default0 with
    account_type := EN_ACCOUNT_TYPE_MINER, node_num := 2, node_idx := 1, f := 0,
    highest_block := { number := 9, hashWS := 50, nodeList := [] },
    consensus_block_number := 10, committed_prepare := prepC7, raw_prepare := prepC7 }

/-- State with a prepared block for hash 34 at the current height 10. -/
def stC8 : St :=
  { St.default0 with
    node_num := 2, node_idx := 0, f := 0, consensus_block_number := 10,
    highest_block := { number := 9, hashWS := 50, nodeList := [] },
    prepare := { height := 10, view := 0, idx := 1, timestamp := 0, block_hash := 34,
                 sig := 0, sig2 := 0, block := 0 } }

/-- A valid sign vote of the peer for hash 77 at the CURRENT height 10 and
view 0 — neither height nor view lies above the current slot. -/
def reqC8 : PBFTMsg :=
  { height := 10, view := 0, idx := 1, timestamp := 4, block_hash := 77,
    sig := env2.sigOfPub 200 77, sig2 := env2.sig2OfPub 200 10 0 1 4 77 }

/-- Follower state awaiting a proposal at height 10 under view 0. -/
def stC2 : St :=
  { St.default0 with
    account_type := EN_ACCOUNT_TYPE_MINER, node_num := 2, node_idx := 0, f := 0,
    consensus_block_number := 10,
    highest_block := { number := 9, hashWS := 50, nodeList := [] } }

/-- A valid proposal of the peer leader for hash 33 at height 10. -/
def reqC2 : PrepareReq :=
  { height := 10, view := 0, idx := 1, timestamp := 2, block_hash := 33,
    sig := env2.sigOfPub 200 33, sig2 := env2.sig2OfPub 200 10 0 1 2 33, block := 4 }

/-- A valid sign vote of the peer for hash 77 at a future height. -/
def reqD : PBFTMsg :=
  { height := 3, view := 0, idx := 1, timestamp := 8, block_hash := 77,
    sig := env2.sigOfPub 200 77, sig2 := env2.sig2OfPub 200 3 0 1 8 77 }

/-- Reachable state of the two-miner node holding the cached vote `reqD`. -/
def stDup : St := (run env2 (initEnvSt env2 10 0 none) [Ev.signMsg 3 7 reqD]).1

/-- State with the commit trigger set for hash 5. -/
def stW : St := { St.default0 with commitMap := [(5, true)] }

/-- Leader-failed variant of `stC7`. -/
def stLF : St := { stC7 with leader_failed := true }

/-- A reported block advancing the chain tip to 12. -/
def bC10 : BlockHeader := { number := 12, hashWS := 90, nodeList := [] }

/-- A sealed header over the two-miner roster. -/
def hdrC9 : BlockHeader := { number := 1, hashWS := 55, nodeList := [100, 200] }

/-- Both miners' signatures over `hdrC9`'s pre-seal hash. -/
def sigsC9 : List (Nat × Nat) := [(0, env2.sigOfPub 100 55), (1, env2.sigOfPub 200 55)]

/-- Well-formedness of a cached vote under the idealised crypto: it is keyed
by its own signature, carries the bucket's hash, and its signature is the
registered sender key's unique signature over that hash. -/
def entryOK (env : Env) (h : Nat) (e : Nat × PBFTMsg) : Prop :=
  e.1 = e.2.sig ∧ e.2.block_hash = h ∧
    ∃ pub, env.pubOf e.2.idx = some pub ∧ e.2.sig = env.sigOfPub pub h

/-- Well-formedness of a vote bucket: pairwise distinct keys and only
well-formed votes. -/
def bucketOK (env : Env) (h : Nat) (b : List (Nat × PBFTMsg)) : Prop :=
  (b.map Prod.fst).Nodup ∧ ∀ e ∈ b, entryOK env h e

/-- Well-formedness of a vote cache: every bucket is well formed for its
hash. -/
def cacheOK (env : Env) (c : List (Nat × List (Nat × PBFTMsg))) : Prop :=
  ∀ e ∈ c, bucketOK env e.1 e.2

/-- Inductive invariant of the engine: the node knows its own index and both
vote caches are well formed. -/
def WF (env : Env) (i0 : Nat) (s : St) : Prop :=
  s.node_idx = i0 ∧ cacheOK env s.sign_cache ∧ cacheOK env s.commit_cache

/-- Environment sanity: the node's own roster lookups succeed, the roster is
nonempty, and the node's index maps back to its own public key. -/
def EnvOK (env : Env) (i0 : Nat) : Prop :=
  env.selfAccountType.isSome = true ∧ 1 ≤ env.minerNum ∧
    env.selfIdx = some i0 ∧ env.pubOf i0 = some env.selfPub

/-- State shape right after `checkAndChangeView` completes a view change:
the view has caught up with `m_to_view` and all consensus caches (including
the commit-trigger map) are cleared. -/
def viewChangedSt (s : St) : Prop :=
  s.view = s.to_view ∧ s.sign_cache = [] ∧ s.commit_cache = [] ∧ s.commitMap = [] ∧
    s.raw_prepare = PrepareReq.empty ∧ s.prepare = PrepareReq.empty

/-!  Association-list and output-counting lemmas. -/

theorem alookup_aset {β : Type} (m : List (Nat × β)) (k k' : Nat) (v : β) :
    alookup (aset m k v) k' = if k = k' then some v else alookup m k' := by
  induction m with
  | nil => by_cases h : k = k' <;> simp [aset, alookup, h]
  | cons e es ih =>
    by_cases he : e.1 = k
    · simp only [aset, if_pos he]
      by_cases h : k = k' <;> simp [alookup, he, h]
    · simp only [aset, if_neg he]
      by_cases h1 : e.1 = k'
      · have h : ¬k = k' := fun hkk => he (hkk ▸ h1)
        simp [alookup, h1, h]
      · simp [alookup, h1, ih]

theorem alookup_mem {β : Type} {m : List (Nat × β)} {k : Nat} {v : β}
    (h : alookup m k = some v) : (k, v) ∈ m := by
  induction m with
  | nil => simp [alookup] at h
  | cons e es ih =>
    obtain ⟨a, b⟩ := e
    by_cases he : a = k
    · have h2 : b = v := by simpa [alookup, he] using h
      subst h2
      subst he
      exact List.mem_cons_self _ _
    · simp [alookup, he] at h
      exact List.mem_cons_of_mem _ (ih h)

theorem mem_aset {β : Type} {m : List (Nat × β)} {k : Nat} {v : β} {e : Nat × β}
    (h : e ∈ aset m k v) : e ∈ m ∨ e = (k, v) := by
  induction m with
  | nil => simp [aset] at h; simp [h]
  | cons e2 es ih =>
    by_cases he : e2.1 = k
    · simp [aset, he] at h
      rcases h with h | h
      · right; simp [h]
      · left; exact List.mem_cons_of_mem _ h
    · simp [aset, he] at h
      rcases h with h | h
      · left; simp [h]
      · rcases ih h with h2 | h2
        · left; exact List.mem_cons_of_mem _ h2
        · right; exact h2

theorem mem_aerase {β : Type} {m : List (Nat × β)} {k : Nat} {e : Nat × β}
    (h : e ∈ aerase m k) : e ∈ m := by
  induction m with
  | nil => simp [aerase] at h
  | cons e2 es ih =>
    by_cases he : e2.1 = k
    · simp [aerase, he] at h
      exact List.mem_cons_of_mem _ h
    · simp [aerase, he] at h
      rcases h with h | h
      · simp [h]
      · exact List.mem_cons_of_mem _ (ih h)

theorem agetD_fst {β : Type} (m : List (Nat × β)) (k : Nat) (d : β) :
    (agetD m k d).1 = (alookup m k).getD d := by
  unfold agetD
  cases h : alookup m k <;> simp

theorem alookup_agetD_snd {β : Type} (m : List (Nat × β)) (k k' : Nat) (d : β) :
    alookup (agetD m k d).2 k' =
      if k = k' then some ((alookup m k).getD d) else alookup m k' := by
  unfold agetD
  cases h : alookup m k with
  | none => rw [alookup_aset]; by_cases hk : k = k' <;> simp [hk, h]
  | some v =>
    by_cases hk : k = k'
    · subst hk; simp [h]
    · simp [hk, h]

theorem mem_agetD_snd {β : Type} {m : List (Nat × β)} {k : Nat} {d : β} {e : Nat × β}
    (h : e ∈ (agetD m k d).2) : e ∈ m ∨ e = (k, d) := by
  unfold agetD at h
  cases h2 : alookup m k with
  | none => rw [h2] at h; exact mem_aset h
  | some v => rw [h2] at h; exact Or.inl h

theorem sealsFor_append (o1 o2 : List Out) (h : Nat) :
    sealsFor (o1 ++ o2) h = sealsFor o1 h + sealsFor o2 h := by
  simp [sealsFor, List.filter_append]

theorem sealsFor_single_ne {hs b : Nat} {g : List (Nat × Nat)} {p : Bool} {h : Nat}
    (hne : hs ≠ h) : sealsFor [Out.seal hs b g p] h = 0 := by
  simp [sealsFor, Out.emittedHash, hne]

/-!  Commit-trigger preservation: the vote-handling paths only add `true`
entries to `m_commitMap`, and `checkAndSave` never emits for a hash whose
trigger is already set. -/

theorem commitMap_broadcastCommitReq (env : Env) (now : Nat) (s : St) (req : PrepareReq) :
    (broadcastCommitReq env now s req).1.commitMap = s.commitMap := by
  unfold broadcastCommitReq addCommitReq
  split <;> rfl

theorem commitMap_broadcastSignReq (env : Env) (now : Nat) (s : St) (req : PrepareReq) :
    (broadcastSignReq env now s req).1.commitMap = s.commitMap := by
  unfold broadcastSignReq addSignReq
  split <;> rfl

theorem commitMap_recvFutureBlock (s : St) (frm : Nat) (req : PrepareReq) :
    (recvFutureBlock s frm req).commitMap = s.commitMap := by
  unfold recvFutureBlock
  split <;> rfl

theorem commitMap_checkAndSave {s : St} {h : Nat}
    (hs : alookup s.commitMap h = some true) :
    alookup (checkAndSave s).1.commitMap h = some true ∧
      sealsFor (checkAndSave s).2 h = 0 := by
  simp only [checkAndSave]
  split
  · rename_i hcond
    by_cases hbh : s.prepare.block_hash = h
    · rw [hbh] at hcond
      simp [hs] at hcond
    · have hl : alookup (aset s.commitMap s.prepare.block_hash true) h = some true := by
        rw [alookup_aset, if_neg hbh]
        exact hs
      split
      · exact ⟨hl, rfl⟩
      · split
        · exact ⟨hl, sealsFor_single_ne hbh⟩
        · exact ⟨hl, rfl⟩
  · exact ⟨hs, rfl⟩

theorem commitMap_checkAndCommit {env : Env} {now : Nat} {s : St} {h : Nat}
    (hs : alookup s.commitMap h = some true) :
    alookup (checkAndCommit env now s).1.commitMap h = some true ∧
      sealsFor (checkAndCommit env now s).2 h = 0 := by
  simp only [checkAndCommit]
  split
  · split
    · exact ⟨hs, rfl⟩
    · apply commitMap_checkAndSave
      split
      · rw [commitMap_broadcastCommitReq]
        exact hs
      · exact hs
  · exact ⟨hs, rfl⟩

theorem commitMap_handlePrepareExec {env : Env} {now : Nat} {s : St} {req : PrepareReq}
    {h : Nat} (hs : alookup s.commitMap h = some true) :
    alookup (handlePrepareExec env now s req).1.commitMap h = some true ∧
      sealsFor (handlePrepareExec env now s req).2 h = 0 := by
  unfold handlePrepareExec
  split
  · exact ⟨hs, rfl⟩
  split
  · exact ⟨hs, rfl⟩
  split
  · exact ⟨hs, rfl⟩
  split
  · exact ⟨hs, rfl⟩
  apply commitMap_checkAndCommit
  split
  · rw [commitMap_broadcastSignReq]
    exact hs
  · exact hs

theorem commitMap_handlePrepareMsg {env : Env} {now : Nat} {s : St} {frm : Nat}
    {req : PrepareReq} {self : Bool} {h : Nat}
    (hs : alookup s.commitMap h = some true) :
    alookup (handlePrepareMsg env now s frm req self).1.commitMap h = some true ∧
      sealsFor (handlePrepareMsg env now s frm req self).2 h = 0 := by
  unfold handlePrepareMsg
  split
  · exact ⟨hs, rfl⟩
  split
  · exact ⟨hs, rfl⟩
  split
  · exact ⟨hs, rfl⟩
  split
  · rw [commitMap_recvFutureBlock]
    exact ⟨hs, rfl⟩
  split
  · exact ⟨hs, rfl⟩
  split
  · exact ⟨hs, rfl⟩
  split
  · exact ⟨hs, rfl⟩
  exact commitMap_handlePrepareExec hs

theorem commitMap_handleSignMsg {env : Env} {now : Nat} {s : St} (frm : Nat)
    {req : PBFTMsg} {h : Nat} (hs : alookup s.commitMap h = some true) :
    alookup (handleSignMsg env now s frm req).1.commitMap h = some true ∧
      sealsFor (handleSignMsg env now s frm req).2 h = 0 := by
  unfold handleSignMsg
  split
  · exact ⟨hs, rfl⟩
  split
  · exact ⟨hs, rfl⟩
  split
  · split
    · exact ⟨hs, rfl⟩
    · exact ⟨hs, rfl⟩
  split
  · exact ⟨hs, rfl⟩
  split
  · exact ⟨hs, rfl⟩
  exact commitMap_checkAndCommit hs

theorem commitMap_handleCommitMsg {env : Env} (now : Nat) {s : St} (frm : Nat)
    {req : PBFTMsg} {h : Nat} (hs : alookup s.commitMap h = some true) :
    alookup (handleCommitMsg env now s frm req).1.commitMap h = some true ∧
      sealsFor (handleCommitMsg env now s frm req).2 h = 0 := by
  unfold handleCommitMsg
  split
  · exact ⟨hs, rfl⟩
  split
  · exact ⟨hs, rfl⟩
  split
  · split
    · exact ⟨hs, rfl⟩
    · exact ⟨hs, rfl⟩
  split
  · exact ⟨hs, rfl⟩
  split
  · exact ⟨hs, rfl⟩
  exact commitMap_checkAndSave hs

theorem commitMap_generateCommit {env : Env} {now : Nat} {s : St} {bi : BlockHeader}
    {data v : Nat} {h : Nat} (hs : alookup s.commitMap h = some true) :
    alookup (generateCommit env now s bi data v).2.1.commitMap h = some true ∧
      sealsFor (generateCommit env now s bi data v).2.2 h = 0 := by
  simp only [generateCommit]
  split
  · exact ⟨hs, rfl⟩
  split
  · apply commitMap_checkAndCommit
    rw [commitMap_broadcastSignReq]
    exact hs
  · rw [commitMap_broadcastSignReq]
    exact ⟨hs, rfl⟩

theorem commitMap_shouldSeal {env : Env} {now : Nat} {s : St} {h : Nat}
    (hs : alookup s.commitMap h = some true) :
    alookup (shouldSeal env now s).2.1.commitMap h = some true ∧
      sealsFor (shouldSeal env now s).2.2.2 h = 0 := by
  unfold shouldSeal
  split
  · exact ⟨hs, rfl⟩
  split
  · exact ⟨hs, rfl⟩
  split
  · split
    · split
      · split
        · exact ⟨hs, rfl⟩
        · exact ⟨hs, rfl⟩
      · exact ⟨hs, rfl⟩
    · exact ⟨hs, rfl⟩
  split
  · split
    · exact commitMap_handlePrepareMsg hs
    · exact ⟨hs, rfl⟩
  · exact ⟨hs, rfl⟩

theorem commitMap_handleFutureBlock {env : Env} {now : Nat} {s : St} {h : Nat}
    (hs : alookup s.commitMap h = some true) :
    alookup (handleFutureBlock env now s).1.commitMap h = some true ∧
      sealsFor (handleFutureBlock env now s).2 h = 0 := by
  unfold handleFutureBlock
  split
  · exact ⟨(commitMap_handlePrepareMsg hs).1, (commitMap_handlePrepareMsg hs).2⟩
  · exact ⟨hs, rfl⟩

theorem commitMap_generateSeal {env : Env} {now : Nat} {s : St} {bi : BlockHeader}
    {data : Nat} {h : Nat} (hs : alookup s.commitMap h = some true) :
    alookup (generateSeal env now s bi data).2.commitMap h = some true := by
  unfold generateSeal broadcastPrepareReq
  split <;> exact hs

theorem commitMap_step {env : Env} {s : St} {ev : Ev} {h : Nat}
    (hcl : isClearingEv ev = false) (hs : alookup s.commitMap h = some true) :
    alookup (step env s ev).1.commitMap h = some true ∧
      sealsFor (step env s ev).2 h = 0 := by
  cases ev with
  | prepareMsg now frm req => exact commitMap_handlePrepareMsg hs
  | signMsg now frm req => exact commitMap_handleSignMsg frm hs
  | commitMsg now frm req => exact commitMap_handleCommitMsg now frm hs
  | viewChangeMsg now frm req => simp [isClearingEv] at hcl
  | timeout now => simp [isClearingEv] at hcl
  | futureBlk now => exact commitMap_handleFutureBlock hs
  | collect now => simp [isClearingEv] at hcl
  | report now b => simp [isClearingEv] at hcl
  | genSeal now bi data => exact ⟨commitMap_generateSeal hs, rfl⟩
  | genCommit now bi data v => exact commitMap_generateCommit hs
  | sealQuery now => exact commitMap_shouldSeal hs
  | emptyBlockView => exact ⟨hs, rfl⟩

/-- Claim C1, counterexample.  The claim says that once `checkAndSave` has
emitted a sealed block for a hash (setting its `commitTriggered` flag), no
later call of `checkAndSave` invokes `onSealGenerated` for that hash again in
any reachable sequence of handler invocations.  This is false: on the
single-miner node, committing hash 77 sets the flag, a timeout completes a
view change whose `checkAndChangeView` clears the whole commit-trigger map,
and committing hash 77 again under the new view emits a second time. -/
theorem C1_at_most_once_counterexample :
    alookup (run env1 init1 evsC1pre).1.commitMap 77 = some true ∧
      sealsFor (run env1 init1 evsC1).2 77 = 2 := by decide

/-- Claim C1, amended: once `commitTriggered[h]` is set, no later call of
`checkAndSave` invokes `onSealGenerated` for `h` in any sequence of handler
invocations that contains no view-change processing (`handleViewChangeMsg`
or `checkTimeout`), no `reportBlock` and no garbage collection — exactly the
operations that can clear the flag, after which re-emission for `h` is
reachable again. -/
theorem C1_at_most_once_amended (env : Env) (s : St) (h : Nat) (evs : List Ev)
    (hset : alookup s.commitMap h = some true)
    (hcl : ∀ ev ∈ evs, isClearingEv ev = false) :
    sealsFor (run env s evs).2 h = 0 ∧
      alookup (run env s evs).1.commitMap h = some true := by
  induction evs generalizing s with
  | nil => exact ⟨rfl, hset⟩
  | cons ev evs ih =>
    have h1 := @commitMap_step env s ev h (hcl ev (List.mem_cons_self _ _)) hset
    have h2 := ih (step env s ev).1 h1.1 (fun e he => hcl e (List.mem_cons_of_mem _ he))
    constructor
    · show sealsFor ((step env s ev).2 ++ (run env (step env s ev).1 evs).2) h = 0
      rw [sealsFor_append, h1.2, h2.1]
    · exact h2.2

/-- Claim C1, witness for the amended theorem at a concrete state with the
trigger set for hash 5 and a single sign-vote invocation. -/
theorem C1_at_most_once_amended_witness :
    sealsFor (run env2 stW [Ev.signMsg 3 1 reqD]).2 5 = 0 :=
  (C1_at_most_once_amended env2 stW 5 [Ev.signMsg 3 1 reqD] (by decide) (by decide)).1

/-!  Prepare- and raw-prepare-preservation lemmas for the voting tail. -/

theorem prepare_broadcastCommitReq (env : Env) (now : Nat) (s : St) (req : PrepareReq) :
    (broadcastCommitReq env now s req).1.prepare = s.prepare ∧
      (broadcastCommitReq env now s req).1.raw_prepare = s.raw_prepare := by
  unfold broadcastCommitReq addCommitReq
  split <;> exact ⟨rfl, rfl⟩

theorem prepare_broadcastSignReq (env : Env) (now : Nat) (s : St) (req : PrepareReq) :
    (broadcastSignReq env now s req).1.prepare = s.prepare ∧
      (broadcastSignReq env now s req).1.raw_prepare = s.raw_prepare := by
  unfold broadcastSignReq addSignReq
  split <;> exact ⟨rfl, rfl⟩

theorem prepare_checkAndSave (s : St) :
    (checkAndSave s).1.prepare = s.prepare ∧
      (checkAndSave s).1.raw_prepare = s.raw_prepare := by
  simp only [checkAndSave]
  split
  · split
    · exact ⟨rfl, rfl⟩
    split
    · exact ⟨rfl, rfl⟩
    · exact ⟨rfl, rfl⟩
  · exact ⟨rfl, rfl⟩

theorem prepare_checkAndCommit (env : Env) (now : Nat) (s : St) :
    (checkAndCommit env now s).1.prepare = s.prepare ∧
      (checkAndCommit env now s).1.raw_prepare = s.raw_prepare := by
  simp only [checkAndCommit]
  split
  · split
    · exact ⟨rfl, rfl⟩
    · refine ⟨?_, ?_⟩
      · rw [(prepare_checkAndSave _).1]
        split
        · exact (prepare_broadcastCommitReq _ _ _ _).1
        · rfl
      · rw [(prepare_checkAndSave _).2]
        split
        · exact (prepare_broadcastCommitReq _ _ _ _).2
        · rfl
  · exact ⟨rfl, rfl⟩

/-- Claim C2, counterexample.  The claim says that after a successful accept
`prepare.blockHash` equals `rawPrepare.blockHash`.  When re-sealing changes
the hash (executor `env2x`), the accepted proposal is stored with
`prepare.blockHash = h* = 34` while `rawPrepare` keeps the original hash 33. -/
theorem C2_prepare_matches_raw_counterexample :
    (handlePrepareMsg env2x 3 stC2 1 reqC2 false).1.raw_prepare = reqC2 ∧
      (handlePrepareMsg env2x 3 stC2 1 reqC2 false).1.prepare ≠ PrepareReq.empty ∧
      (handlePrepareMsg env2x 3 stC2 1 reqC2 false).1.prepare.block_hash ≠
        (handlePrepareMsg env2x 3 stC2 1 reqC2 false).1.raw_prepare.block_hash := by
  decide

/-- Claim C2, amended: every run of `handlePrepareMsg` either leaves both
`prepare` and `rawPrepare` unchanged (rejection before the raw store, or a
future-slot park), or leaves `prepare` empty with `rawPrepare = req`
(rejection after the raw store), or accepts: `rawPrepare = req` and
`prepare` keeps the proposal's `height`, `view` and `idx` but carries the
re-sealed hash `h* = er.resealedHash`, which may differ from
`rawPrepare.blockHash` (they agree exactly when re-sealing preserves the
hash). -/
theorem C2_prepare_matches_raw_amended (env : Env) (now : Nat) (s : St) (frm : Nat)
    (req : PrepareReq) (self : Bool) :
    ((handlePrepareMsg env now s frm req self).1.prepare = s.prepare ∧
      (handlePrepareMsg env now s frm req self).1.raw_prepare = s.raw_prepare) ∨
    ((handlePrepareMsg env now s frm req self).1.prepare = PrepareReq.empty ∧
      (handlePrepareMsg env now s frm req self).1.raw_prepare = req) ∨
    ((handlePrepareMsg env now s frm req self).1.raw_prepare = req ∧
      (handlePrepareMsg env now s frm req self).1.prepare.height = req.height ∧
      (handlePrepareMsg env now s frm req self).1.prepare.view = req.view ∧
      (handlePrepareMsg env now s frm req self).1.prepare.idx = req.idx ∧
      ∃ er, env.exec req = some er ∧ er.execHash = req.block_hash ∧
        (handlePrepareMsg env now s frm req self).1.prepare.block_hash =
          er.resealedHash) := by
  unfold handlePrepareMsg
  split
  · exact Or.inl ⟨rfl, rfl⟩
  split
  · exact Or.inl ⟨rfl, rfl⟩
  split
  · exact Or.inl ⟨rfl, rfl⟩
  split
  · left
    unfold recvFutureBlock
    split <;> exact ⟨rfl, rfl⟩
  split
  · exact Or.inl ⟨rfl, rfl⟩
  split
  · exact Or.inl ⟨rfl, rfl⟩
  split
  · exact Or.inl ⟨rfl, rfl⟩
  unfold handlePrepareExec
  split
  · exact Or.inr (Or.inl ⟨rfl, rfl⟩)
  rename_i er hx
  split
  · exact Or.inr (Or.inl ⟨rfl, rfl⟩)
  rename_i hhash
  split
  · exact Or.inr (Or.inl ⟨rfl, rfl⟩)
  split
  · exact Or.inr (Or.inl ⟨rfl, rfl⟩)
  · right; right
    refine ⟨?_, ?_, ?_, ?_, er, hx, not_not.mp hhash, ?_⟩
    · rw [(prepare_checkAndCommit _ _ _).2]
      split
      · rw [(prepare_broadcastSignReq _ _ _ _).2]
        rfl
      · rfl
    · rw [(prepare_checkAndCommit _ _ _).1]
      split
      · rw [(prepare_broadcastSignReq _ _ _ _).1]
        rfl
      · rfl
    · rw [(prepare_checkAndCommit _ _ _).1]
      split
      · rw [(prepare_broadcastSignReq _ _ _ _).1]
        rfl
      · rfl
    · rw [(prepare_checkAndCommit _ _ _).1]
      split
      · rw [(prepare_broadcastSignReq _ _ _ _).1]
        rfl
      · rfl
    · rw [(prepare_checkAndCommit _ _ _).1]
      split
      · rw [(prepare_broadcastSignReq _ _ _ _).1]
        rfl
      · rfl

/-- Claim C3, counterexample.  The claim says `commitTriggered[h]` is set
only when all four emission preconditions hold, and stays false when the
view precondition fails.  In `stC3` both vote sets reach quorum 3 but the
prepared view 3 differs from the current view 0: `checkAndSave` emits
nothing, yet it sets the flag before the view check. -/
theorem C3_trigger_only_on_emit_counterexample :
    quorum stC3 ≤ ((alookup stC3.sign_cache stC3.prepare.block_hash).getD []).length ∧
      quorum stC3 ≤ ((alookup stC3.commit_cache stC3.prepare.block_hash).getD []).length ∧
      alookup stC3.commitMap stC3.prepare.block_hash = none ∧
      stC3.prepare.view ≠ stC3.view ∧
      (checkAndSave stC3).2 = [] ∧
      alookup (checkAndSave stC3).1.commitMap 40 = some true := by
  decide

/-- Claim C3, amended: `checkAndSave` sets `commitTriggered[h]` exactly when
`h` is the prepared hash, both vote sets reach quorum and the flag is not
already set — independently of the view and height checks; emission
additionally requires `prepare.view = view` and `prepare.height > chainTip`,
and when either of those fails the flag nevertheless remains set. -/
theorem C3_trigger_only_on_emit_amended (s : St) (h : Nat) :
    (alookup (checkAndSave s).1.commitMap h = some true ↔
      (alookup s.commitMap h = some true ∨
        (h = s.prepare.block_hash ∧
          quorum s ≤ ((alookup s.sign_cache s.prepare.block_hash).getD []).length ∧
          quorum s ≤ ((alookup s.commit_cache s.prepare.block_hash).getD []).length))) ∧
    ((checkAndSave s).2 ≠ [] ↔
      (quorum s ≤ ((alookup s.sign_cache s.prepare.block_hash).getD []).length ∧
        quorum s ≤ ((alookup s.commit_cache s.prepare.block_hash).getD []).length ∧
        (alookup s.commitMap s.prepare.block_hash).getD false = false ∧
        s.prepare.view = s.view ∧ s.highest_block.number < s.prepare.height)) := by
  simp only [checkAndSave, agetD_fst]
  constructor
  · split
    · rename_i hcond
      have hgoal : alookup (aset s.commitMap s.prepare.block_hash true) h = some true ↔
          (alookup s.commitMap h = some true ∨
            (h = s.prepare.block_hash ∧
              quorum s ≤ ((alookup s.sign_cache s.prepare.block_hash).getD []).length ∧
              quorum s ≤
                ((alookup s.commit_cache s.prepare.block_hash).getD []).length)) := by
        rw [alookup_aset]
        by_cases hbh : s.prepare.block_hash = h
        · simp only [if_pos hbh]
          constructor
          · intro _
            exact Or.inr ⟨hbh.symm, hcond.1, hcond.2.1⟩
          · intro _
            trivial
        · simp only [if_neg hbh]
          constructor
          · intro hold
            exact Or.inl hold
          · rintro (hold | ⟨hh, _, _⟩)
            · exact hold
            · exact absurd hh.symm hbh
      split
      · exact hgoal
      split
      · exact hgoal
      · exact hgoal
    · rename_i hcond
      constructor
      · intro hold
        exact Or.inl hold
      · rintro (hold | ⟨hh, hq1, hq2⟩)
        · exact hold
        · have hgd : (alookup s.commitMap s.prepare.block_hash).getD false ≠ false :=
            fun hc => hcond ⟨hq1, hq2, hc⟩
          rw [hh]
          cases hl : alookup s.commitMap s.prepare.block_hash with
          | none => rw [hl] at hgd; simp at hgd
          | some b =>
            rw [hl] at hgd
            cases b with
            | false => simp at hgd
            | true => rfl
  · split
    · rename_i hcond
      split
      · rename_i hview
        constructor
        · intro hne
          exact absurd rfl hne
        · rintro ⟨_, _, _, hv, _⟩
          exact absurd hv hview
      · split
        · rename_i hview hht
          constructor
          · intro _
            exact ⟨hcond.1, hcond.2.1, hcond.2.2, not_ne_iff.mp hview, hht⟩
          · intro _
            exact List.cons_ne_nil _ _
        · rename_i hview hht
          constructor
          · intro hne
            exact absurd rfl hne
          · rintro ⟨_, _, _, _, hh2⟩
            exact absurd hh2 hht
    · rename_i hcond
      constructor
      · intro hne
        exact absurd rfl hne
      · rintro ⟨hq1, hq2, hcc, _, _⟩
        exact absurd ⟨hq1, hq2, hcc⟩ hcond

/-- Claim C4 (confirmed): whenever `checkAndSave` emits a sealed block, the
emission is for the prepared hash and block bytes, and the attached
signature list contains exactly one `(idx, sig)` pair per entry of the
commit cache for that hash — the full evidence set, not a quorum-sized
subset. -/
theorem C4_full_commit_evidence (s : St) (h b : Nat) (sigs : List (Nat × Nat)) (p : Bool)
    (hmem : Out.seal h b sigs p ∈ (checkAndSave s).2) :
    h = s.prepare.block_hash ∧ b = s.prepare.block ∧
      sigs = ((alookup s.commit_cache s.prepare.block_hash).getD []).map
        (fun e => (e.2.idx, e.1)) := by
  simp only [checkAndSave, agetD_fst] at hmem
  split at hmem
  · split at hmem
    · simp at hmem
    · split at hmem
      · simp only [List.mem_singleton, Out.seal.injEq] at hmem
        exact ⟨hmem.1, hmem.2.1, hmem.2.2.1⟩
      · simp at hmem
  · simp at hmem

/-- Claim C4, witness: the emission of `stC4` carries one pair per cached
commit vote. -/
theorem C4_full_commit_evidence_witness :
    40 = stC4.prepare.block_hash ∧ 8 = stC4.prepare.block ∧
      [(1, 11), (2, 12), (3, 13)] =
        ((alookup stC4.commit_cache stC4.prepare.block_hash).getD []).map
          (fun e => (e.2.idx, e.1)) :=
  C4_full_commit_evidence stC4 40 8 [(1, 11), (2, 12), (3, 13)] false (by decide)

/-!  Quorum arithmetic and the block-signature verifier. -/

theorem signCountThreshold_eq {n : Nat} (hn : 1 ≤ n) (hn2 : n < 2 ^ 64) :
    signCountThreshold n = quorumSize n := by
  unfold signCountThreshold quorumSize u64sub
  have hp : (2 : Nat) ^ 64 = 18446744073709551616 := by norm_num
  rw [hp] at hn2 ⊢
  omega

theorem checkBlockSign_spec (env : Env) (header : BlockHeader) (sigs : List (Nat × Nat)) :
    checkBlockSign env header sigs = true ↔
      ∃ ml, getMinerList env ((header.number : Int) - 1) = some ml ∧
        header.nodeList = ml ∧ signCountThreshold ml.length ≤ sigs.length ∧
        ∀ p ∈ sigs, p.1 < ml.length ∧ p.2 = env.sigOfPub (ml.getD p.1 0) header.hashWS := by
  unfold checkBlockSign
  cases hml : getMinerList env ((header.number : Int) - 1) with
  | none => simp
  | some ml =>
    dsimp only
    constructor
    · intro hb
      split_ifs at hb with h1 h2
      refine ⟨ml, rfl, not_not.mp h1, not_lt.mp h2, ?_⟩
      intro p hp
      have hall := List.all_eq_true.mp hb p hp
      simp only [Bool.and_eq_true, decide_eq_true_eq, verifySig] at hall
      exact hall
    · rintro ⟨ml', hml', hnl, hth, hall⟩
      have he : ml = ml' := by injection hml'
      subst he
      rw [if_neg (not_not.mpr hnl), if_neg (not_lt.mpr hth), List.all_eq_true]
      intro p hp
      simp only [Bool.and_eq_true, decide_eq_true_eq, verifySig]
      exact hall p hp

/-- Claim C5, counterexample: for roster size N = 2, the threshold the
verifier uses is N − ⌊(N−1)/3⌋ = 2 while 2f + 1 = 1 with f = ⌊(N−1)/3⌋ = 0,
so the claimed identity "quorum = 2f + 1" fails. -/
theorem C5_quorum_formula_counterexample :
    quorumSize 2 = 2 ∧ signCountThreshold 2 = 2 ∧ 2 * ((2 - 1) / 3) + 1 = 1 ∧
      quorumSize 2 ≠ 2 * ((2 - 1) / 3) + 1 := by decide

/-- Claim C5, amended: for every roster size N ≥ 1 (below `2^64`), the quorum
the engine uses equals N − ⌊(N−1)/3⌋ — both the modelled `quorum()` with `f`
as `resetConfig` computes it and the verifier's count threshold; this value
is always ≥ 2f + 1 and equals 2f + 1 exactly when N ≡ 1 (mod 3); the
block-signature verifier (other checks passing) accepts a signature count s
iff s ≥ N − ⌊(N−1)/3⌋. -/
theorem C5_quorum_formula_amended (n : Nat) (hn : 1 ≤ n) (hn2 : n < 2 ^ 64) :
    (∀ s : St, s.node_num = n → s.f = (n - 1) / 3 → quorum s = quorumSize n) ∧
    signCountThreshold n = quorumSize n ∧
    2 * ((n - 1) / 3) + 1 ≤ quorumSize n ∧
    (quorumSize n = 2 * ((n - 1) / 3) + 1 ↔ n % 3 = 1) ∧
    (∀ env header sigs (ml : List Nat),
      getMinerList env ((header.number : Int) - 1) = some ml →
      header.nodeList = ml → ml.length = n →
      (∀ p ∈ sigs, p.1 < ml.length ∧ p.2 = env.sigOfPub (ml.getD p.1 0) header.hashWS) →
      (checkBlockSign env header sigs = true ↔ quorumSize n ≤ sigs.length)) := by
  refine ⟨?_, signCountThreshold_eq hn hn2, ?_, ?_, ?_⟩
  · intro s h1 h2
    unfold quorum quorumSize
    rw [h1, h2]
  · unfold quorumSize
    omega
  · unfold quorumSize
    omega
  · intro env header sigs ml hml hnl hlen hall
    have hth : signCountThreshold ml.length = quorumSize n := by
      rw [hlen]
      exact signCountThreshold_eq hn hn2
    rw [checkBlockSign_spec]
    constructor
    · rintro ⟨ml', hml', _, hcnt, _⟩
      rw [hml] at hml'
      have he : ml = ml' := by injection hml'
      subst he
      rw [hth] at hcnt
      exact hcnt
    · intro hcnt
      exact ⟨ml, hml, hnl, by rw [hth]; exact hcnt, hall⟩

/-- Claim C5, witness: the amended facts evaluated at N = 4. -/
theorem C5_quorum_formula_amended_witness :
    signCountThreshold 4 = quorumSize 4 ∧ 2 * ((4 - 1) / 3) + 1 ≤ quorumSize 4 ∧
      (quorumSize 4 = 2 * ((4 - 1) / 3) + 1 ↔ 4 % 3 = 1) :=
  ⟨(C5_quorum_formula_amended 4 (by decide) (by norm_num)).2.1,
    (C5_quorum_formula_amended 4 (by decide) (by norm_num)).2.2.1,
    (C5_quorum_formula_amended 4 (by decide) (by norm_num)).2.2.2.1⟩

/-- Claim C9 (confirmed): `checkBlockSign(header, sigList)` returns true iff
the miner list fetched for `number − 1` exists and equals the header's
declared node list, the signature count reaches the threshold
(`N − ⌊(N−1)/3⌋` on `size_t`, which equals the spec's formula for every
N ≥ 1), every listed idx indexes the miner list, and every `(idx, sig)` pair
verifies against that index's key over the header's pre-seal hash. -/
theorem C9_checkBlockSign_iff :
    (∀ env header sigs,
      checkBlockSign env header sigs = true ↔
        ∃ ml, getMinerList env ((header.number : Int) - 1) = some ml ∧
          header.nodeList = ml ∧ signCountThreshold ml.length ≤ sigs.length ∧
          ∀ p ∈ sigs, p.1 < ml.length ∧
            p.2 = env.sigOfPub (ml.getD p.1 0) header.hashWS) ∧
    ∀ n, 1 ≤ n → n < 2 ^ 64 → signCountThreshold n = n - (n - 1) / 3 :=
  ⟨checkBlockSign_spec, fun _ hn hn2 => signCountThreshold_eq hn hn2⟩

/-- Claim C9, witness: a concrete accepting verification, and the threshold
identity at N = 4. -/
theorem C9_checkBlockSign_iff_witness :
    checkBlockSign env2 hdrC9 sigsC9 = true ∧ signCountThreshold 4 = 4 - (4 - 1) / 3 :=
  ⟨(C9_checkBlockSign_iff.1 env2 hdrC9 sigsC9).mpr
      ⟨[100, 200], by decide, by decide, by decide, by decide⟩,
    C9_checkBlockSign_iff.2 4 (by decide) (by norm_num)⟩

/-!  The sealing gate. -/

theorem getLeader_iff (s : St) :
    getLeader s = some s.node_idx ↔
      (s.cfg_err = false ∧ s.leader_failed = false ∧
        s.highest_block.number ≠ Invalid256 ∧
        (s.view + s.highest_block.number) % s.node_num = s.node_idx) := by
  unfold getLeader
  split
  · rename_i hc
    constructor
    · intro h
      cases h
    · rintro ⟨h1, h2, h3, _⟩
      rcases hc with hc | hc | hc
      · rw [h1] at hc
        exact absurd hc (by decide)
      · rw [h2] at hc
        exact absurd hc (by decide)
      · exact (h3 hc).elim
  · rename_i hc
    simp only [not_or, Bool.not_eq_true] at hc
    constructor
    · intro h
      injection h with h2
      exact ⟨hc.1, hc.2.1, hc.2.2, h2⟩
    · rintro ⟨_, _, _, h4⟩
      rw [h4]

/-- Claim C7, counterexample.  The claim says that when a saved committed
prepare exists for the current consensus height, `shouldSeal` returns false
AND re-broadcasts the stored proposal.  In `stC7` the committed prepare sits
at the consensus height but the raw prepare is already at that height too:
`shouldSeal` returns false WITHOUT running `reHandlePrepareReq` (third
component of the result is false, state unchanged, nothing emitted). -/
theorem C7_shouldSeal_gate_counterexample :
    stC7.consensus_block_number = stC7.committed_prepare.height ∧
      shouldSeal env2 3 stC7 = (false, stC7, false, []) := by decide

/-- Claim C7, amended: `shouldSeal` returns true iff the configuration is
good, the node is a miner, `getLeader` elects this node (equivalently: no
configuration error, leader not failed, known chain tip and
`(view + chainTip) mod N = selfIdx`), and the consensus height DIFFERS from
the committed prepare's height (`!=` in the code, not `>`); it runs
`reHandlePrepareReq` exactly when instead the committed prepare sits at the
consensus height AND the raw prepare's height differs from it. -/
theorem C7_shouldSeal_gate_amended (env : Env) (now : Nat) (s : St) :
    ((shouldSeal env now s).1 = true ↔
      (s.cfg_err = false ∧ s.account_type = EN_ACCOUNT_TYPE_MINER ∧
        getLeader s = some s.node_idx ∧
        s.consensus_block_number ≠ s.committed_prepare.height)) ∧
    ((shouldSeal env now s).2.2.1 = true ↔
      (s.cfg_err = false ∧ s.account_type = EN_ACCOUNT_TYPE_MINER ∧
        getLeader s = some s.node_idx ∧
        s.consensus_block_number = s.committed_prepare.height ∧
        s.consensus_block_number ≠ s.raw_prepare.height)) ∧
    (getLeader s = some s.node_idx ↔
      (s.cfg_err = false ∧ s.leader_failed = false ∧
        s.highest_block.number ≠ Invalid256 ∧
        (s.view + s.highest_block.number) % s.node_num = s.node_idx)) := by
  refine ⟨?_, ?_, getLeader_iff s⟩
  · unfold shouldSeal
    split
    · rename_i hc
      constructor
      · intro h
        cases h
      · rintro ⟨h1, h2, _, _⟩
        rcases hc with hc | hc
        · rw [h1] at hc
          exact absurd hc (by decide)
        · exact (hc h2).elim
    · rename_i hc
      simp only [not_or, Bool.not_eq_true] at hc
      split
      · rename_i hgl
        constructor
        · intro h
          cases h
        · rintro ⟨_, _, h3, _⟩
          rw [hgl] at h3
          cases h3
      · rename_i leader hgl
        split
        · rename_i hne
          constructor
          · intro h
            cases h
          · rintro ⟨_, _, h3, _⟩
            rw [hgl] at h3
            injection h3 with h4
            exact (hne h4).elim
        · rename_i hne
          split
          · rename_i hcc
            split
            · constructor
              · intro h
                cases h
              · rintro ⟨_, _, _, h4⟩
                exact (h4 hcc).elim
            · constructor
              · intro h
                cases h
              · rintro ⟨_, _, _, h4⟩
                exact (h4 hcc).elim
          · rename_i hcc
            constructor
            · intro _
              exact ⟨hc.1, not_not.mp hc.2, by rw [hgl, not_not.mp hne], hcc⟩
            · intro _
              rfl
  · unfold shouldSeal
    split
    · rename_i hc
      constructor
      · intro h
        cases h
      · rintro ⟨h1, h2, _, _⟩
        rcases hc with hc | hc
        · rw [h1] at hc
          exact absurd hc (by decide)
        · exact (hc h2).elim
    · rename_i hc
      simp only [not_or, Bool.not_eq_true] at hc
      split
      · rename_i hgl
        constructor
        · intro h
          cases h
        · rintro ⟨_, _, h3, _⟩
          rw [hgl] at h3
          cases h3
      · rename_i leader hgl
        split
        · rename_i hne
          constructor
          · intro h
            cases h
          · rintro ⟨_, _, h3, _⟩
            rw [hgl] at h3
            injection h3 with h4
            exact (hne h4).elim
        · rename_i hne
          split
          · rename_i hcc
            split
            · rename_i hraw
              constructor
              · intro _
                exact ⟨hc.1, not_not.mp hc.2, by rw [hgl, not_not.mp hne], hcc, hraw⟩
              · intro _
                rfl
            · rename_i hraw
              constructor
              · intro h
                cases h
              · rintro ⟨_, _, _, _, h5⟩
                exact (hraw h5).elim
          · rename_i hcc
            constructor
            · intro h
              cases h
            · rintro ⟨_, _, _, h4, _⟩
              exact (hcc h4).elim

/-- Claim C8, counterexample.  The claim says a sign vote whose hash differs
from the prepared hash is cached only when it is for a height ABOVE the
consensus height or a view above the current one.  `reqC8` sits exactly AT
the consensus height 10 with the current view, yet `handleSignMsg` caches
it in the sign cache (the guard is `height >= consensusHeight`). -/
theorem C8_future_vote_gate_counterexample :
    stC8.prepare.block_hash ≠ reqC8.block_hash ∧
      ¬stC8.consensus_block_number < reqC8.height ∧ ¬stC8.view < reqC8.view ∧
      (handleSignMsg env2 5 stC8 1 reqC8).1 ≠ stC8 ∧
      isExistSign (handleSignMsg env2 5 stC8 1 reqC8).1 reqC8 = true := by
  decide

/-- Claim C8, amended: when a sign (resp. commit) vote is neither a
duplicate nor self-originated and its hash differs from the prepared hash,
it is cached iff its height is AT LEAST the consensus height (`>=`, not
strictly above) or its view is above the current view, and its signatures
verify; otherwise it is dropped with no state change. -/
theorem C8_future_vote_gate_amended (env : Env) (now : Nat) (s : St) (frm : Nat)
    (req : PBFTMsg) (hs : isExistSign s req = false) (hc : isExistCommit s req = false)
    (hself : req.idx ≠ s.node_idx) (hhash : s.prepare.block_hash ≠ req.block_hash) :
    handleSignMsg env now s frm req =
      (if (s.consensus_block_number ≤ req.height ∨ s.view < req.view) ∧
          checkSign env req = true
       then (addSignReq s req, []) else (s, [])) ∧
    handleCommitMsg env now s frm req =
      (if (s.consensus_block_number ≤ req.height ∨ s.view < req.view) ∧
          checkSign env req = true
       then (addCommitReq s req, []) else (s, [])) := by
  constructor
  · unfold handleSignMsg
    rw [if_neg (show ¬isExistSign s req = true by simp [hs]), if_neg hself, if_pos hhash]
  · unfold handleCommitMsg
    rw [if_neg (show ¬isExistCommit s req = true by simp [hc]), if_neg hself, if_pos hhash]

/-- Claim C8, witness for the amended theorem at the concrete current-height
vote `reqC8`. -/
theorem C8_future_vote_gate_amended_witness :
    handleSignMsg env2 5 stC8 1 reqC8 =
      (if (stC8.consensus_block_number ≤ reqC8.height ∨ stC8.view < reqC8.view) ∧
          checkSign env2 reqC8 = true
       then (addSignReq stC8 reqC8, []) else (stC8, [])) :=
  (C8_future_vote_gate_amended env2 5 stC8 1 reqC8 (by decide) (by decide) (by decide)
    (by decide)).1

/-!  Leader-failed flag tracking. -/

theorem lf_broadcastCommitReq (env : Env) (now : Nat) (s : St) (req : PrepareReq) :
    (broadcastCommitReq env now s req).1.leader_failed = s.leader_failed := by
  unfold broadcastCommitReq addCommitReq
  split <;> rfl

theorem lf_broadcastSignReq (env : Env) (now : Nat) (s : St) (req : PrepareReq) :
    (broadcastSignReq env now s req).1.leader_failed = s.leader_failed := by
  unfold broadcastSignReq addSignReq
  split <;> rfl

theorem lf_checkAndSave (s : St) :
    (checkAndSave s).1.leader_failed = s.leader_failed := by
  simp only [checkAndSave]
  split
  · split
    · rfl
    split
    · rfl
    · rfl
  · rfl

theorem lf_checkAndCommit (env : Env) (now : Nat) (s : St) :
    (checkAndCommit env now s).1.leader_failed = s.leader_failed := by
  simp only [checkAndCommit]
  split
  · split
    · rfl
    · rw [lf_checkAndSave]
      split
      · exact lf_broadcastCommitReq _ _ _ _
      · rfl
  · rfl

theorem lf_handlePrepareExec (env : Env) (now : Nat) (s : St) (req : PrepareReq) :
    (handlePrepareExec env now s req).1.leader_failed = s.leader_failed := by
  unfold handlePrepareExec
  split
  · rfl
  split
  · rfl
  split
  · rfl
  split
  · rfl
  · rw [lf_checkAndCommit]
    split
    · rw [lf_broadcastSignReq]
      rfl
    · rfl

theorem lf_handlePrepareMsg (env : Env) (now : Nat) (s : St) (frm : Nat)
    (req : PrepareReq) (self : Bool) :
    (handlePrepareMsg env now s frm req self).1.leader_failed = s.leader_failed := by
  unfold handlePrepareMsg
  split
  · rfl
  split
  · rfl
  split
  · rfl
  split
  · unfold recvFutureBlock
    split <;> rfl
  split
  · rfl
  split
  · rfl
  split
  · rfl
  · rw [lf_handlePrepareExec]
    rfl

theorem lf_handleSignMsg (env : Env) (now : Nat) (s : St) (frm : Nat) (req : PBFTMsg) :
    (handleSignMsg env now s frm req).1.leader_failed = s.leader_failed := by
  unfold handleSignMsg
  split
  · rfl
  split
  · rfl
  split
  · split <;> rfl
  split
  · rfl
  split
  · rfl
  · rw [lf_checkAndCommit]
    rfl

theorem lf_handleCommitMsg (env : Env) (now : Nat) (s : St) (frm : Nat) (req : PBFTMsg) :
    (handleCommitMsg env now s frm req).1.leader_failed = s.leader_failed := by
  unfold handleCommitMsg
  split
  · rfl
  split
  · rfl
  split
  · split <;> rfl
  split
  · rfl
  split
  · rfl
  · rw [lf_checkAndSave]
    rfl

theorem lf_generateCommit (env : Env) (now : Nat) (s : St) (bi : BlockHeader)
    (data v : Nat) :
    (generateCommit env now s bi data v).2.1.leader_failed = s.leader_failed := by
  simp only [generateCommit]
  split
  · rfl
  split
  · rw [lf_checkAndCommit, lf_broadcastSignReq]
    rfl
  · rw [lf_broadcastSignReq]
    rfl

theorem lf_generateSeal (env : Env) (now : Nat) (s : St) (bi : BlockHeader) (data : Nat) :
    (generateSeal env now s bi data).2.leader_failed = s.leader_failed := by
  unfold generateSeal broadcastPrepareReq
  split <;> rfl

theorem lf_shouldSeal (env : Env) (now : Nat) (s : St) :
    (shouldSeal env now s).2.1.leader_failed = s.leader_failed := by
  unfold shouldSeal
  split
  · rfl
  split
  · rfl
  split
  · split
    · split
      · split <;> rfl
      · rfl
    · rfl
  split
  · split
    · exact lf_handlePrepareMsg _ _ _ _ _ _
    · rfl
  · rfl

theorem lf_handleFutureBlock (env : Env) (now : Nat) (s : St) :
    (handleFutureBlock env now s).1.leader_failed = s.leader_failed := by
  unfold handleFutureBlock
  split
  · exact lf_handlePrepareMsg _ _ _ _ _ _
  · rfl

theorem lf_collectGarbage (now : Nat) (s : St) :
    (collectGarbage now s).leader_failed = s.leader_failed := by
  unfold collectGarbage
  split
  · rfl
  split
  · rfl
  · rfl

theorem lf_resetConfig (env : Env) (s : St) :
    (resetConfig env s).leader_failed = s.leader_failed := by
  simp only [resetConfig]
  repeat' split
  all_goals rfl

theorem lf_broadcastViewChangeReq (env : Env) (s : St) :
    (broadcastViewChangeReq env s).1.leader_failed = s.leader_failed := by
  unfold broadcastViewChangeReq
  split <;> rfl

theorem lf_checkAndChangeView (s : St) :
    (checkAndChangeView s).leader_failed = s.leader_failed ∨
      viewChangedSt (checkAndChangeView s) := by
  simp only [checkAndChangeView]
  split
  · right
    exact ⟨rfl, rfl, rfl, rfl, rfl, rfl⟩
  · left
    rfl

theorem lf_checkTimeout (env : Env) (now : Nat) (s : St) :
    (checkTimeout env now s).leader_failed = s.leader_failed ∨
      (checkTimeout env now s).leader_failed = true ∨
      viewChangedSt (checkTimeout env now s) := by
  simp only [checkTimeout]
  split
  · split
    · right
      left
      rw [lf_broadcastViewChangeReq]
    · rcases lf_checkAndChangeView ((broadcastViewChangeReq env _).1) with hl | hv
      · right
        left
        rw [hl, lf_broadcastViewChangeReq]
      · right
        right
        exact hv
  · left
    rfl

theorem lf_handleViewChangeMsg (env : Env) (now : Nat) (s : St) (frm : Nat)
    (req : PBFTMsg) :
    (handleViewChangeMsg env now s frm req).leader_failed = s.leader_failed ∨
      viewChangedSt (handleViewChangeMsg env now s frm req) := by
  simp only [handleViewChangeMsg]
  split
  · left
    rfl
  split
  · left
    rfl
  split
  · left
    rfl
  split
  · left
    rfl
  split
  · left
    rfl
  split
  · exact lf_checkAndChangeView _
  · split
    · left
      rfl
    · left
      rfl

theorem lf_reportBlock {env : Env} {now : Nat} {s : St} {b : BlockHeader}
    (hb : ¬s.consensus_block_number ≤ b.number) :
    (reportBlock env now s b).leader_failed = s.leader_failed := by
  simp only [reportBlock, delCache]
  rw [if_neg hb]
  split
  · rw [lf_resetConfig]
  · rw [lf_resetConfig]

/-- Claim C10 (confirmed): whenever `leaderFailed` is set, `getLeader` fails
and therefore `shouldSeal` returns false (for every node state with the
flag, in particular the elected primary's); and any single handler step that
clears the flag is either a `reportBlock` whose tip reaches the consensus
height, or completes a view change (leaving `view = toView` and all
consensus caches cleared) through `checkAndChangeView`, as invoked by
`handleViewChangeMsg` or `checkTimeout`. -/
theorem C10_leader_failed_blocks_sealing (env : Env) (s : St) :
    (s.leader_failed = true →
      getLeader s = none ∧ ∀ now, (shouldSeal env now s).1 = false) ∧
    (∀ ev, s.leader_failed = true → (step env s ev).1.leader_failed = false →
      (∃ now b, ev = Ev.report now b ∧ s.consensus_block_number ≤ b.number) ∨
        viewChangedSt (step env s ev).1) := by
  constructor
  · intro hlf
    have hgl : getLeader s = none := by
      unfold getLeader
      rw [if_pos (Or.inr (Or.inl hlf))]
    refine ⟨hgl, ?_⟩
    intro now
    unfold shouldSeal
    split
    · rfl
    · rw [hgl]
  · intro ev h1 h2
    cases ev with
    | prepareMsg now frm req =>
      dsimp only [step] at h2
      rw [lf_handlePrepareMsg, h1] at h2
      cases h2
    | signMsg now frm req =>
      dsimp only [step] at h2
      rw [lf_handleSignMsg, h1] at h2
      cases h2
    | commitMsg now frm req =>
      dsimp only [step] at h2
      rw [lf_handleCommitMsg, h1] at h2
      cases h2
    | viewChangeMsg now frm req =>
      rcases lf_handleViewChangeMsg env now s frm req with hl | hv
      · rw [show (step env s (Ev.viewChangeMsg now frm req)).1 =
            handleViewChangeMsg env now s frm req from rfl, hl, h1] at h2
        cases h2
      · exact Or.inr hv
    | timeout now =>
      rcases lf_checkTimeout env now s with hl | hl | hv
      · rw [show (step env s (Ev.timeout now)).1 = checkTimeout env now s from rfl,
          hl, h1] at h2
        cases h2
      · rw [show (step env s (Ev.timeout now)).1 = checkTimeout env now s from rfl,
          hl] at h2
        cases h2
      · exact Or.inr hv
    | futureBlk now =>
      dsimp only [step] at h2
      rw [lf_handleFutureBlock, h1] at h2
      cases h2
    | collect now =>
      dsimp only [step] at h2
      rw [lf_collectGarbage, h1] at h2
      cases h2
    | report now b =>
      by_cases hb : s.consensus_block_number ≤ b.number
      · exact Or.inl ⟨now, b, rfl, hb⟩
      · rw [show (step env s (Ev.report now b)).1 = reportBlock env now s b from rfl,
          lf_reportBlock hb, h1] at h2
        cases h2
    | genSeal now bi data =>
      dsimp only [step] at h2
      rw [lf_generateSeal, h1] at h2
      cases h2
    | genCommit now bi data v =>
      dsimp only [step] at h2
      rw [lf_generateCommit, h1] at h2
      cases h2
    | sealQuery now =>
      dsimp only [step] at h2
      rw [lf_shouldSeal, h1] at h2
      cases h2
    | emptyBlockView =>
      cases h2

/-- Claim C10, witness: the flagged node's `getLeader` fails, and the
reported block at tip 12 is a legitimate flag-clearing step. -/
theorem C10_leader_failed_blocks_sealing_witness :
    getLeader stLF = none ∧
      ((∃ now b, Ev.report 7 bC10 = Ev.report now b ∧
          stLF.consensus_block_number ≤ b.number) ∨
        viewChangedSt (step env2 stLF (Ev.report 7 bC10)).1) :=
  ⟨((C10_leader_failed_blocks_sealing env2 stLF).1 (by decide)).1,
    (C10_leader_failed_blocks_sealing env2 stLF).2 (Ev.report 7 bC10) (by decide)
      (by decide)⟩

/-!  Well-formedness of the vote caches. -/

theorem keys_eq_of_nodup {b : List (Nat × PBFTMsg)} :
    (b.map Prod.fst).Nodup → ∀ e1 ∈ b, ∀ e2 ∈ b, e1.1 = e2.1 → e1 = e2 := by
  induction b with
  | nil =>
    intro _ e1 h1
    cases h1
  | cons e es ih =>
    intro hn e1 h1 e2 h2 hk
    simp only [List.map_cons, List.nodup_cons] at hn
    rcases List.mem_cons.mp h1 with he1 | he1 <;> rcases List.mem_cons.mp h2 with he2 | he2
    · rw [he1, he2]
    · exfalso
      apply hn.1
      rw [← he1, hk]
      exact List.mem_map_of_mem _ he2
    · exfalso
      apply hn.1
      rw [← he2, ← hk]
      exact List.mem_map_of_mem _ he1
    · exact ih hn.2 e1 he1 e2 he2 hk

theorem mem_keys_aset {β : Type} {b : List (Nat × β)} {k k' : Nat} {v : β}
    (h : k' ∈ (aset b k v).map Prod.fst) : k' = k ∨ k' ∈ b.map Prod.fst := by
  obtain ⟨e, he, hk⟩ := List.mem_map.mp h
  rcases mem_aset he with h2 | h2
  · right
    rw [← hk]
    exact List.mem_map_of_mem _ h2
  · left
    rw [← hk, h2]

theorem nodup_keys_aset {β : Type} {b : List (Nat × β)} {k : Nat} {v : β}
    (h : (b.map Prod.fst).Nodup) : ((aset b k v).map Prod.fst).Nodup := by
  induction b with
  | nil => simp [aset]
  | cons e es ih =>
    by_cases he : e.1 = k
    · simp only [aset, if_pos he, List.map_cons, List.nodup_cons] at h ⊢
      rw [← he]
      exact h
    · simp only [aset, if_neg he, List.map_cons, List.nodup_cons] at h ⊢
      refine ⟨?_, ih h.2⟩
      intro hmem
      rcases mem_keys_aset hmem with h2 | h2
      · exact he h2
      · exact h.1 h2

theorem bucketOK_nil (env : Env) (h : Nat) : bucketOK env h [] := by
  constructor
  · simp
  · intro e he
    cases he

theorem bucketOK_aset {env : Env} {h : Nat} {b : List (Nat × PBFTMsg)} {k : Nat}
    {v : PBFTMsg} (hb : bucketOK env h b) (he : entryOK env h (k, v)) :
    bucketOK env h (aset b k v) := by
  refine ⟨nodup_keys_aset hb.1, ?_⟩
  intro e hmem
  rcases mem_aset hmem with h2 | h2
  · exact hb.2 e h2
  · rw [h2]
    exact he

theorem bucketOK_filter {env : Env} {h : Nat} {b : List (Nat × PBFTMsg)}
    (hb : bucketOK env h b) (p : Nat × PBFTMsg → Bool) :
    bucketOK env h (b.filter p) := by
  refine ⟨hb.1.sublist ((List.filter_sublist b).map Prod.fst), ?_⟩
  intro e hmem
  exact hb.2 e (List.mem_of_mem_filter hmem)

theorem cacheOK_nil (env : Env) : cacheOK env [] := by
  intro e he
  cases he

theorem cacheOK_aset {env : Env} {c : List (Nat × List (Nat × PBFTMsg))} {k : Nat}
    {b : List (Nat × PBFTMsg)} (hc : cacheOK env c) (hb : bucketOK env k b) :
    cacheOK env (aset c k b) := by
  intro e hmem
  rcases mem_aset hmem with h2 | h2
  · exact hc e h2
  · rw [h2]
    exact hb

theorem cacheOK_aerase {env : Env} {c : List (Nat × List (Nat × PBFTMsg))} {k : Nat}
    (hc : cacheOK env c) : cacheOK env (aerase c k) := by
  intro e hmem
  exact hc e (mem_aerase hmem)

theorem cacheOK_agetD {env : Env} {c : List (Nat × List (Nat × PBFTMsg))} {k : Nat}
    (hc : cacheOK env c) : cacheOK env (agetD c k []).2 := by
  intro e hmem
  rcases mem_agetD_snd hmem with h2 | h2
  · exact hc e h2
  · rw [h2]
    exact bucketOK_nil env k

theorem bucketOK_of_lookup {env : Env} {c : List (Nat × List (Nat × PBFTMsg))} {k : Nat}
    {b : List (Nat × PBFTMsg)} (hc : cacheOK env c) (hl : alookup c k = some b) :
    bucketOK env k b :=
  hc (k, b) (alookup_mem hl)

theorem bucketOK_agetD_fst {env : Env} {c : List (Nat × List (Nat × PBFTMsg))} {k : Nat}
    (hc : cacheOK env c) : bucketOK env k (agetD c k []).1 := by
  rw [agetD_fst]
  cases hl : alookup c k with
  | none => exact bucketOK_nil env k
  | some b => exact bucketOK_of_lookup hc hl

theorem cacheOK_filterBucketView {env : Env} {c : List (Nat × List (Nat × PBFTMsg))}
    (hc : cacheOK env c) (h v : Nat) : cacheOK env (filterBucketView c h v) := by
  unfold filterBucketView
  cases hl : alookup c h with
  | none => exact hc
  | some b => exact cacheOK_aset hc (bucketOK_filter (bucketOK_of_lookup hc hl) _)

theorem cacheOK_collectSign {env : Env} {highest : Nat}
    {c : List (Nat × List (Nat × PBFTMsg))} (hc : cacheOK env c)
    (cm : List (Nat × Bool)) : cacheOK env (collectSign highest c cm).1 := by
  induction c generalizing cm with
  | nil =>
    intro e he
    cases he
  | cons e es ih =>
    have hes : cacheOK env es := fun e2 he2 => hc e2 (List.mem_cons_of_mem _ he2)
    simp only [collectSign]
    split
    · exact ih hes _
    · intro e2 he2
      rcases List.mem_cons.mp he2 with h2 | h2
      · rw [h2]
        exact bucketOK_filter (hc e (List.mem_cons_self _ _)) _
      · exact ih hes cm e2 h2

theorem cacheOK_collectCommit {env : Env} {highest : Nat}
    {c : List (Nat × List (Nat × PBFTMsg))} (hc : cacheOK env c) :
    cacheOK env (collectCommit highest c) := by
  intro e hmem
  have h1 := List.mem_of_mem_filter hmem
  obtain ⟨e0, he0, he⟩ := List.mem_map.mp h1
  rw [← he]
  exact bucketOK_filter (hc e0 he0) _

theorem checkSign_entry {env : Env} {req : PBFTMsg} (h : checkSign env req = true) :
    ∃ pub, env.pubOf req.idx = some pub ∧ req.sig = env.sigOfPub pub req.block_hash := by
  unfold checkSign at h
  cases hp : env.pubOf req.idx with
  | none =>
    rw [hp] at h
    cases h
  | some pub =>
    rw [hp] at h
    simp only [Bool.and_eq_true, decide_eq_true_eq] at h
    exact ⟨pub, rfl, h.1⟩

theorem WF_addSignReq {env : Env} {i0 : Nat} {s : St} {req : PBFTMsg} (hw : WF env i0 s)
    (hsig : ∃ pub, env.pubOf req.idx = some pub ∧
      req.sig = env.sigOfPub pub req.block_hash) :
    WF env i0 (addSignReq s req) :=
  ⟨hw.1,
    cacheOK_aset (cacheOK_agetD hw.2.1)
      (bucketOK_aset (bucketOK_agetD_fst hw.2.1) ⟨rfl, rfl, hsig⟩),
    hw.2.2⟩

theorem WF_addCommitReq {env : Env} {i0 : Nat} {s : St} {req : PBFTMsg} (hw : WF env i0 s)
    (hsig : ∃ pub, env.pubOf req.idx = some pub ∧
      req.sig = env.sigOfPub pub req.block_hash) :
    WF env i0 (addCommitReq s req) :=
  ⟨hw.1, hw.2.1,
    cacheOK_aset (cacheOK_agetD hw.2.2)
      (bucketOK_aset (bucketOK_agetD_fst hw.2.2) ⟨rfl, rfl, hsig⟩)⟩

theorem WF_broadcastSignReq {env : Env} {i0 now : Nat} {s : St} {req : PrepareReq}
    (he : EnvOK env i0) (hw : WF env i0 s) :
    WF env i0 (broadcastSignReq env now s req).1 := by
  unfold broadcastSignReq
  split
  · exact WF_addSignReq hw ⟨env.selfPub, by rw [hw.1]; exact he.2.2.2, rfl⟩
  · exact hw

theorem WF_broadcastCommitReq {env : Env} {i0 now : Nat} {s : St} {req : PrepareReq}
    (he : EnvOK env i0) (hw : WF env i0 s) :
    WF env i0 (broadcastCommitReq env now s req).1 := by
  unfold broadcastCommitReq
  split
  · exact WF_addCommitReq hw ⟨env.selfPub, by rw [hw.1]; exact he.2.2.2, rfl⟩
  · exact hw

theorem WF_checkAndSave {env : Env} {i0 : Nat} {s : St} (hw : WF env i0 s) :
    WF env i0 (checkAndSave s).1 := by
  simp only [checkAndSave]
  split
  · split
    · exact ⟨hw.1, cacheOK_agetD hw.2.1, cacheOK_agetD hw.2.2⟩
    split
    · exact ⟨hw.1, cacheOK_agetD hw.2.1, cacheOK_agetD hw.2.2⟩
    · exact ⟨hw.1, cacheOK_agetD hw.2.1, cacheOK_agetD hw.2.2⟩
  · exact ⟨hw.1, cacheOK_agetD hw.2.1, cacheOK_agetD hw.2.2⟩

theorem WF_checkAndCommit {env : Env} {i0 now : Nat} {s : St} (he : EnvOK env i0)
    (hw : WF env i0 s) : WF env i0 (checkAndCommit env now s).1 := by
  simp only [checkAndCommit]
  split
  · split
    · exact ⟨hw.1, cacheOK_agetD hw.2.1, hw.2.2⟩
    · apply WF_checkAndSave
      split
      · exact WF_broadcastCommitReq he ⟨hw.1, cacheOK_agetD hw.2.1, hw.2.2⟩
      · exact ⟨hw.1, cacheOK_agetD hw.2.1, hw.2.2⟩
  · exact ⟨hw.1, cacheOK_agetD hw.2.1, hw.2.2⟩

theorem WF_addPrepareReq {env : Env} {i0 : Nat} {s : St} {req : PrepareReq}
    (hw : WF env i0 s) : WF env i0 (addPrepareReq s req) :=
  ⟨hw.1, cacheOK_filterBucketView hw.2.1 _ _, cacheOK_filterBucketView hw.2.2 _ _⟩

theorem WF_handlePrepareExec {env : Env} {i0 now : Nat} {s : St} {req : PrepareReq}
    (he : EnvOK env i0) (hw : WF env i0 s) :
    WF env i0 (handlePrepareExec env now s req).1 := by
  unfold handlePrepareExec
  split
  · exact hw
  split
  · exact hw
  split
  · exact hw
  split
  · exact hw
  · apply WF_checkAndCommit he
    split
    · exact WF_broadcastSignReq he (WF_addPrepareReq hw)
    · exact WF_addPrepareReq hw

theorem WF_handlePrepareMsg {env : Env} {i0 now : Nat} {s : St} {frm : Nat}
    {req : PrepareReq} {self : Bool} (he : EnvOK env i0) (hw : WF env i0 s) :
    WF env i0 (handlePrepareMsg env now s frm req self).1 := by
  unfold handlePrepareMsg
  split
  · exact hw
  split
  · exact hw
  split
  · exact hw
  split
  · unfold recvFutureBlock
    split
    · exact hw
    · exact hw
  split
  · exact hw
  split
  · exact hw
  split
  · exact hw
  · exact WF_handlePrepareExec he ⟨hw.1, hw.2.1, hw.2.2⟩

theorem WF_handleSignMsg {env : Env} {i0 now : Nat} {s : St} {frm : Nat} {req : PBFTMsg}
    (he : EnvOK env i0) (hw : WF env i0 s) :
    WF env i0 (handleSignMsg env now s frm req).1 := by
  unfold handleSignMsg
  split
  · exact hw
  split
  · exact hw
  split
  · split
    · rename_i hcond
      exact WF_addSignReq hw (checkSign_entry hcond.2)
    · exact hw
  split
  · exact hw
  split
  · exact hw
  · rename_i hcs
    exact WF_checkAndCommit he
      (WF_addSignReq hw (checkSign_entry (Bool.not_eq_false _ ▸ Bool.of_not_eq_false hcs)))

theorem WF_handleCommitMsg {env : Env} {i0 now : Nat} {s : St} {frm : Nat} {req : PBFTMsg}
    (_he : EnvOK env i0) (hw : WF env i0 s) :
    WF env i0 (handleCommitMsg env now s frm req).1 := by
  unfold handleCommitMsg
  split
  · exact hw
  split
  · exact hw
  split
  · split
    · rename_i hcond
      exact WF_addCommitReq hw (checkSign_entry hcond.2)
    · exact hw
  split
  · exact hw
  split
  · exact hw
  · rename_i hcs
    exact WF_checkAndSave
      (WF_addCommitReq hw (checkSign_entry (Bool.of_not_eq_false hcs)))

theorem WF_checkAndChangeView {env : Env} {i0 : Nat} {s : St} (hw : WF env i0 s) :
    WF env i0 (checkAndChangeView s) := by
  simp only [checkAndChangeView]
  split
  · exact ⟨hw.1, cacheOK_nil env, cacheOK_nil env⟩
  · exact hw

theorem WF_broadcastViewChangeReq {env : Env} {i0 : Nat} {s : St} (hw : WF env i0 s) :
    WF env i0 (broadcastViewChangeReq env s).1 := by
  unfold broadcastViewChangeReq
  split
  · exact hw
  · exact hw

theorem WF_checkTimeout {env : Env} {i0 now : Nat} {s : St} (hw : WF env i0 s) :
    WF env i0 (checkTimeout env now s) := by
  simp only [checkTimeout]
  split
  · split
    · exact WF_broadcastViewChangeReq ⟨hw.1, hw.2.1, hw.2.2⟩
    · exact WF_checkAndChangeView (WF_broadcastViewChangeReq ⟨hw.1, hw.2.1, hw.2.2⟩)
  · exact hw

theorem WF_handleViewChangeMsg {env : Env} {i0 : Nat} (now : Nat) {s : St} (frm : Nat)
    {req : PBFTMsg} (hw : WF env i0 s) :
    WF env i0 (handleViewChangeMsg env now s frm req) := by
  simp only [handleViewChangeMsg]
  split
  · exact hw
  split
  · exact hw
  split
  · exact hw
  split
  · exact hw
  split
  · exact hw
  split
  · exact WF_checkAndChangeView ⟨hw.1, hw.2.1, hw.2.2⟩
  · split
    · exact ⟨hw.1, hw.2.1, hw.2.2⟩
    · exact ⟨hw.1, hw.2.1, hw.2.2⟩

theorem WF_resetConfig {env : Env} {i0 : Nat} {s : St} (he : EnvOK env i0)
    (hc1 : cacheOK env s.sign_cache) (hc2 : cacheOK env s.commit_cache) :
    WF env i0 (resetConfig env s) := by
  obtain ⟨ha, hm, hi, hp⟩ := he
  obtain ⟨a, ha2⟩ := Option.isSome_iff_exists.mp ha
  simp only [resetConfig, ha2, hi]
  rw [if_neg (by omega : ¬env.minerNum = 0)]
  split
  · split
    · exact ⟨rfl, cacheOK_nil env, hc2⟩
    split
    · exact ⟨rfl, cacheOK_nil env, hc2⟩
    · exact ⟨rfl, cacheOK_nil env, hc2⟩
  · rename_i hcond
    simp only [not_or, not_not] at hcond
    exact ⟨hcond.2.symm, hc1, hc2⟩

theorem WF_delCache {env : Env} {i0 : Nat} {s : St} {h : Nat} (hw : WF env i0 s) :
    WF env i0 (delCache s h) := by
  simp only [delCache]
  split
  · exact ⟨hw.1, cacheOK_aerase hw.2.1, cacheOK_aerase hw.2.2⟩
  · exact ⟨hw.1, cacheOK_aerase hw.2.1, cacheOK_aerase hw.2.2⟩

theorem WF_reportBlock {env : Env} {i0 now : Nat} {s : St} {b : BlockHeader}
    (he : EnvOK env i0) (hw : WF env i0 s) :
    WF env i0 (reportBlock env now s b) := by
  unfold reportBlock
  apply WF_delCache
  split
  · exact WF_resetConfig he hw.2.1 hw.2.2
  · exact WF_resetConfig he hw.2.1 hw.2.2

theorem WF_collectGarbage {env : Env} {i0 now : Nat} {s : St} (hw : WF env i0 s) :
    WF env i0 (collectGarbage now s) := by
  unfold collectGarbage
  split
  · exact hw
  split
  · exact ⟨hw.1, cacheOK_collectSign hw.2.1 _, cacheOK_collectCommit hw.2.2⟩
  · exact hw

theorem WF_shouldSeal {env : Env} {i0 now : Nat} {s : St} (he : EnvOK env i0)
    (hw : WF env i0 s) : WF env i0 (shouldSeal env now s).2.1 := by
  unfold shouldSeal
  split
  · exact hw
  split
  · exact hw
  split
  · split
    · split
      · split
        · exact ⟨hw.1, hw.2.1, hw.2.2⟩
        · exact hw
      · exact hw
    · exact hw
  split
  · split
    · exact WF_handlePrepareMsg he hw
    · exact hw
  · exact hw

theorem WF_generateSeal {env : Env} {i0 now : Nat} {s : St} {bi : BlockHeader}
    {data : Nat} (hw : WF env i0 s) : WF env i0 (generateSeal env now s bi data).2 := by
  unfold generateSeal broadcastPrepareReq
  split
  · exact ⟨hw.1, hw.2.1, hw.2.2⟩
  · exact hw

theorem WF_generateCommit {env : Env} {i0 now : Nat} {s : St} {bi : BlockHeader}
    {data v : Nat} (he : EnvOK env i0) (hw : WF env i0 s) :
    WF env i0 (generateCommit env now s bi data v).2.1 := by
  simp only [generateCommit]
  split
  · exact hw
  split
  · exact WF_checkAndCommit he (WF_broadcastSignReq he (WF_addPrepareReq hw))
  · exact WF_broadcastSignReq he (WF_addPrepareReq hw)

theorem WF_handleFutureBlock {env : Env} {i0 now : Nat} {s : St} (he : EnvOK env i0)
    (hw : WF env i0 s) : WF env i0 (handleFutureBlock env now s).1 := by
  unfold handleFutureBlock
  split
  · have h2 := @WF_handlePrepareMsg env i0 now s s.future_prepare.1 s.future_prepare.2
      false he hw
    exact ⟨h2.1, h2.2.1, h2.2.2⟩
  · exact hw

theorem WF_step {env : Env} {i0 : Nat} {s : St} (he : EnvOK env i0) (hw : WF env i0 s)
    (ev : Ev) : WF env i0 (step env s ev).1 := by
  cases ev with
  | prepareMsg now frm req => exact WF_handlePrepareMsg he hw
  | signMsg now frm req => exact @WF_handleSignMsg env i0 now s frm req he hw
  | commitMsg now frm req => exact @WF_handleCommitMsg env i0 now s frm req he hw
  | viewChangeMsg now frm req => exact WF_handleViewChangeMsg now frm hw
  | timeout now => exact WF_checkTimeout hw
  | futureBlk now => exact WF_handleFutureBlock he hw
  | collect now => exact WF_collectGarbage hw
  | report now b => exact WF_reportBlock he hw
  | genSeal now bi data => exact WF_generateSeal hw
  | genCommit now bi data v => exact WF_generateCommit he hw
  | sealQuery now => exact WF_shouldSeal he hw
  | emptyBlockView => exact ⟨hw.1, hw.2.1, hw.2.2⟩

theorem WF_run {env : Env} {i0 : Nat} {s : St} (he : EnvOK env i0) (hw : WF env i0 s)
    (evs : List Ev) : WF env i0 (run env s evs).1 := by
  induction evs generalizing s with
  | nil => exact hw
  | cons ev evs ih => exact ih (WF_step he hw ev)

theorem WF_initEnvSt {env : Env} {i0 : Nat} (he : EnvOK env i0) (vt t0 : Nat)
    (restored : Option PrepareReq) : WF env i0 (initEnvSt env vt t0 restored) := by
  unfold initEnvSt
  have h1 : WF env i0 (resetConfig env St.default0) :=
    WF_resetConfig he (cacheOK_nil env) (cacheOK_nil env)
  cases restored with
  | none => exact ⟨h1.1, h1.2.1, h1.2.2⟩
  | some r => exact ⟨h1.1, h1.2.1, h1.2.2⟩

/-- Claim C6 (confirmed): in every reachable state of a soundly configured
node, each signer index has at most one entry per hash in the sign cache and
at most one in the commit cache (the caches key votes by the signer's unique
signature hex, so a signer's two entries for one hash coincide), and
re-submitting a vote already present is a no-op: the handler returns with
the state unchanged and nothing emitted. -/
theorem C6_vote_uniqueness (env : Env) (i0 : Nat) (s : St) (he : EnvOK env i0)
    (hr : Reachable env s) :
    (∀ h b, alookup s.sign_cache h = some b →
      ∀ e1 ∈ b, ∀ e2 ∈ b, e1.2.idx = e2.2.idx → e1 = e2) ∧
    (∀ h b, alookup s.commit_cache h = some b →
      ∀ e1 ∈ b, ∀ e2 ∈ b, e1.2.idx = e2.2.idx → e1 = e2) ∧
    (∀ e now frm req, isExistSign s req = true →
      handleSignMsg e now s frm req = (s, [])) ∧
    (∀ e now frm req, isExistCommit s req = true →
      handleCommitMsg e now s frm req = (s, [])) := by
  have hw : WF env i0 s := by
    obtain ⟨vt, t0, r, evs, hs⟩ := hr
    rw [hs]
    exact WF_run he (WF_initEnvSt he vt t0 r) evs
  refine ⟨?_, ?_, ?_, ?_⟩
  · intro h b hl e1 h1 e2 h2 hidx
    have hb := bucketOK_of_lookup hw.2.1 hl
    obtain ⟨k1, _, pub1, hp1, hs1⟩ := hb.2 e1 h1
    obtain ⟨k2, _, pub2, hp2, hs2⟩ := hb.2 e2 h2
    apply keys_eq_of_nodup hb.1 e1 h1 e2 h2
    rw [hidx] at hp1
    have hpe : pub1 = pub2 := by
      have h3 := hp1.symm.trans hp2
      injection h3
    rw [k1, k2, hs1, hs2, hpe]
  · intro h b hl e1 h1 e2 h2 hidx
    have hb := bucketOK_of_lookup hw.2.2 hl
    obtain ⟨k1, _, pub1, hp1, hs1⟩ := hb.2 e1 h1
    obtain ⟨k2, _, pub2, hp2, hs2⟩ := hb.2 e2 h2
    apply keys_eq_of_nodup hb.1 e1 h1 e2 h2
    rw [hidx] at hp1
    have hpe : pub1 = pub2 := by
      have h3 := hp1.symm.trans hp2
      injection h3
    rw [k1, k2, hs1, hs2, hpe]
  · intro e now frm req hdup
    unfold handleSignMsg
    rw [if_pos hdup]
  · intro e now frm req hdup
    unfold handleCommitMsg
    rw [if_pos hdup]

/-- Claim C6, witness: the reachable state `stDup` holds the cached vote
`reqD`; re-submitting it is a no-op. -/
theorem C6_vote_uniqueness_witness :
    handleSignMsg env2 9 stDup 1 reqD = (stDup, []) :=
  (C6_vote_uniqueness env2 0 stDup ⟨rfl, by decide, rfl, rfl⟩
    ⟨10, 0, none, [Ev.signMsg 3 7 reqD], rfl⟩).2.2.1 env2 9 1 reqD (by decide)

end PBFT
